import Mathlib

/-!
Verification of the Softr legacy-notification guard scripts.

The DOM is modelled as a tree of element nodes.  Each element carries the
fields the guard script reads or writes: tag name, id, className, attribute
list, the text directly contained in the element (standing for its text-node
children), and the list of element children.  Text and comment nodes are not
modelled as separate tree nodes; an element whose `text` field is nonempty is
understood to have text-node children, so `lastChild` is null exactly when an
element has no element children and empty directly-contained text.

`Elem` and `ElemList` form a mutual inductive pair (rather than nesting
`List Elem`) so that all recursive definitions are structural and reduce in
the kernel.
-/

namespace StubGuard

mutual

inductive Elem : Type where
  | mk (tag idA className : String) (attrs : List (String × String))
       (text : String) (children : ElemList)

inductive ElemList : Type where
  | nil : ElemList
  | cons (c : Elem) (cs : ElemList) : ElemList

end

def Elem.tag : Elem → String
  | .mk t _ _ _ _ _ => t

def Elem.idA : Elem → String
  | .mk _ i _ _ _ _ => i

def Elem.className : Elem → String
  | .mk _ _ cl _ _ _ => cl

def Elem.attrs : Elem → List (String × String)
  | .mk _ _ _ a _ _ => a

def Elem.text : Elem → String
  | .mk _ _ _ _ x _ => x

def Elem.children : Elem → ElemList
  | .mk _ _ _ _ _ cs => cs

/-- Append on element lists. -/
def ElemList.app : ElemList → ElemList → ElemList
  | .nil, l => l
  | .cons c cs, l => .cons c (cs.app l)

def ElemList.isEmpty : ElemList → Bool
  | .nil => true
  | .cons _ _ => false

/-- `hay.includes nee` for JS strings, done on the character lists. -/
def prefOf : List Char → List Char → Bool
  | [], _ => true
  | _ :: _, [] => false
  | a :: as, b :: bs => a == b && prefOf as bs

def hasSub (nee : List Char) (hay : List Char) : Bool :=
  match hay with
  | [] => prefOf nee []
  | _ :: rest => prefOf nee hay || hasSub nee rest

def strIncludes (s sub : String) : Bool := hasSub sub.data s.data

/-- Split a character list on a separator character (the semantics of
`String.split` on a single-character separator). -/
def splitChar (sep : Char) : List Char → List Char → List (List Char)
  | [], acc => [acc.reverse]
  | c :: cs, acc =>
    if c == sep then acc.reverse :: splitChar sep cs []
    else splitChar sep cs (c :: acc)

/-- Class-token membership, as `querySelector` with a class selector tests it:
the className split on spaces contains the token. -/
def hasClass (e : Elem) (cl : String) : Bool :=
  (splitChar ' ' e.className.data []).contains cl.data

def ElemList.ofList : List Elem → ElemList
  | [] => .nil
  | c :: cs => .cons c (ElemList.ofList cs)

mutual

def nodeCount : Elem → Nat
  | .mk _ _ _ _ _ cs => 1 + nodeCountL cs

def nodeCountL : ElemList → Nat
  | .nil => 0
  | .cons c cs => nodeCount c + nodeCountL cs

end

/- First node (the element itself or a descendant, pre-order / document
order) satisfying `p`; this is the search order of `getElementById` and
`querySelector`. -/
mutual

def findNode (p : Elem → Bool) (e : Elem) : Option Elem :=
  match e with
  | .mk _ _ _ _ _ cs => if p e then some e else findL p cs

def findL (p : Elem → Bool) : ElemList → Option Elem
  | .nil => none
  | .cons c cs =>
    match findNode p c with
    | some r => some r
    | none => findL p cs

end

/- Replace the first node (self or descendant, pre-order) satisfying `p` by
its image under `f`; `none` when no node matches.  This models in-place
mutation of a node obtained from a `querySelector`/`getElementById` lookup. -/
mutual

def updNode (p : Elem → Bool) (f : Elem → Elem) (e : Elem) : Option Elem :=
  match e with
  | .mk t i cl a x cs =>
    if p e then some (f e)
    else
      match updL p f cs with
      | some cs2 => some (.mk t i cl a x cs2)
      | none => none

def updL (p : Elem → Bool) (f : Elem → Elem) : ElemList → Option ElemList
  | .nil => none
  | .cons c cs =>
    match updNode p f c with
    | some c2 => some (.cons c2 cs)
    | none =>
      match updL p f cs with
      | some cs2 => some (.cons c cs2)
      | none => none

end

/-- `e.querySelector(p)`: first proper descendant matching `p`. -/
def qselDesc (p : Elem → Bool) (e : Elem) : Option Elem :=
  findL p e.children

/-- Mutate the first proper descendant of `e` matching `p` by `f`
(no-op when none matches). -/
def updDesc (p : Elem → Bool) (f : Elem → Elem) (e : Elem) : Elem :=
  match e with
  | .mk t i cl a x cs =>
    match updL p f cs with
    | some cs2 => .mk t i cl a x cs2
    | none => .mk t i cl a x cs

/-- `e.appendChild(c)`. -/
def appendChild (e c : Elem) : Elem :=
  match e with
  | .mk t i cl a x cs => .mk t i cl a x (cs.app (.cons c .nil))

/-- `e.insertBefore(c, e.firstChild)`. -/
def prependChild (e c : Elem) : Elem :=
  match e with
  | .mk t i cl a x cs => .mk t i cl a x (.cons c cs)

/-- The document: `docElem` is `document.documentElement` (absent in the
degenerate pre-parse state the source guards for with
`if (document.documentElement)`). -/
structure Doc where
  docElem : Option Elem

def HEADER_ID : String := "home-header2"

def idIs (i : String) (e : Elem) : Bool := e.idA == i

def isContainerEl (e : Elem) : Bool := hasClass e "container"

def isDivEl (e : Elem) : Bool := e.tag == "div"

/-- `document.getElementById(i)`. -/
def getElementById (d : Doc) (i : String) : Option Elem :=
  match d.docElem with
  | none => none
  | some r => findNode (idIs i) r

def findTopChild (p : Elem → Bool) : ElemList → Option Elem
  | .nil => none
  | .cons c cs => if p c then some c else findTopChild p cs

/-- `document.body`: the first `body`-tagged child of the document element. -/
def bodyOf (d : Doc) : Option Elem :=
  match d.docElem with
  | none => none
  | some r => findTopChild (fun e => e.tag == "body") r.children

/-- Replace the first direct child satisfying `p` by its image under `f`. -/
def updTopChild (p : Elem → Bool) (f : Elem → Elem) : ElemList → ElemList
  | .nil => .nil
  | .cons c cs => if p c then .cons (f c) cs else .cons c (updTopChild p f cs)

/-- `innerDiv.lastChild` is null: no element children and no directly
contained text. -/
def lastChildNull (e : Elem) : Bool :=
  e.children.isEmpty && e.text == ""

/-! ### ensureStub (src/unnamed/part_000 lines 45-101) -/

def headerStyle : String :=
  "display: none !important; visibility: hidden !important; position: absolute; left: -9999px;"

def hiddenStyle : String := "display: none !important;"

/-- The freshly created stub header (lines 52-55), before insertion. -/
def newHeader : Elem :=
  .mk "div" HEADER_ID "" [("style", headerStyle), ("data-legacy-guard", "v4")] "" .nil

/-- The freshly created `.container` div (lines 71-73). -/
def newContainer : Elem :=
  .mk "div" "" "container" [("style", hiddenStyle)] "" .nil

/-- The freshly created inner div (lines 79-80). -/
def newInnerDiv : Elem :=
  .mk "div" "" "" [("style", hiddenStyle)] "" .nil

/-- The stub span appended when `innerDiv.lastChild` is null (lines 86-89). -/
def newStubSpan : Elem :=
  .mk "span" "" "notification-badge-stub"
    [("style", hiddenStyle), ("data-stub", "true")] "" .nil

/-- Lines 84-91: append the stub span when the inner div has no last child. -/
def ensureMarker (dv : Elem) : Elem :=
  if lastChildNull dv then appendChild dv newStubSpan else dv

/-- Lines 77-91 applied to the (first) container: look up
`container.querySelector('div')`, create the inner div when absent, then
ensure its last child.  The source mutates the looked-up node through its
reference; here that is the update of the first matching descendant (which is
the appended div itself in the creation branch, since no other div descendant
existed). -/
def ensureInner (c : Elem) : Elem :=
  match qselDesc isDivEl c with
  | some _ => updDesc isDivEl ensureMarker c
  | none => updDesc isDivEl ensureMarker (appendChild c newInnerDiv)

/-- Lines 68-91 applied to the header: `header.querySelector('.container')`,
creation when absent, then the inner-div and marker stages on the first
container descendant. -/
def fixHeader (h : Elem) : Elem :=
  match qselDesc isContainerEl h with
  | some _ => updDesc isContainerEl ensureInner h
  | none => updDesc isContainerEl ensureInner (appendChild h newContainer)

/-- Lines 57-65: insert the fresh header at the very beginning of the body
when a body exists, else append it to the document element, else leave the
document unchanged (the created node stays detached). -/
def insertHeader (d : Doc) : Doc :=
  match bodyOf d with
  | some _ =>
    match d.docElem with
    | some r =>
      { docElem := some (match r with
        | .mk t i cl a x cs =>
          .mk t i cl a x (updTopChild (fun e => e.tag == "body") (fun b => prependChild b newHeader) cs)) }
    | none => d
  | none =>
    match d.docElem with
    | some r => { docElem := some (appendChild r newHeader) }
    | none => d

/-- Mutate the first node of the document (pre-order from the document
element) satisfying `p`. -/
def updDoc (d : Doc) (p : Elem → Bool) (f : Elem → Elem) : Doc :=
  match d.docElem with
  | none => d
  | some r =>
    match updNode p f r with
    | some r2 => { docElem := some r2 }
    | none => d

/-- `ensureStub()` (lines 45-101).  The header is looked up by id and created
and inserted when absent; the container / inner-div / marker stages then run
on it through its reference, modelled as the update of the first node with the
header id (which is exactly the looked-up or freshly inserted node).  Nothing
in the `try` block can throw in this model, so the function always reaches
`return true`; the `catch` branch (log and `return false`) is dead code here,
which is the content of the no-throw claims. -/
def ensureStub (d : Doc) : Doc × Bool :=
  match getElementById d HEADER_ID with
  | some _ => (updDoc d (idIs HEADER_ID) fixHeader, true)
  | none => (updDoc (insertHeader d) (idIs HEADER_ID) fixHeader, true)

/-- The document part of an `ensureStub` call. -/
def stubStep (d : Doc) : Doc := (ensureStub d).1

/-- `ensureStub` iterated `n` times. -/
def stubIter : Nat → Doc → Doc
  | 0, d => d
  | n + 1, d => stubIter n (stubStep d)

/-- The container-level checks of `ensureStub`, passing: the first `div`
descendant of the container exists and has a non-null last child. -/
def innerOK (c : Elem) : Bool :=
  match qselDesc isDivEl c with
  | none => false
  | some dv => !(lastChildNull dv)

/-- The header-level checks of `ensureStub`, passing: a `.container`
descendant exists and its first `div` descendant has a non-null last child. -/
def headerOK (h : Elem) : Bool :=
  match qselDesc isContainerEl h with
  | none => false
  | some c => innerOK c

/-- The checks `ensureStub` itself performs, all passing: the header id
resolves, it has a `.container` descendant whose first `div` descendant has a
non-null last child — the four-level chain as the code itself reads it. -/
def ensuredOK (d : Doc) : Bool :=
  match getElementById d HEADER_ID with
  | none => false
  | some h => headerOK h

/-- Total node count of the document tree. -/
def nodeCountDoc (d : Doc) : Nat :=
  match d.docElem with
  | none => 0
  | some r => nodeCount r

/-! ### The guarded selector `#home-header2 .container > div` -/

/- All elements matching the guarded selector, in document order.  The flags
carried down the tree: `underH` — the current element is a proper descendant
of an element with the header id; `parentCont` — its parent is a `.container`
element that is itself a proper descendant of such an element.  The selector
subject is a `div` whose parent is such a container. -/
mutual

def gmatchEl (underH parentCont : Bool) (e : Elem) : List Elem :=
  match e with
  | .mk _ _ _ _ _ cs =>
    (if parentCont && isDivEl e then [e] else []) ++
      gmatchL (underH || idIs HEADER_ID e) (underH && isContainerEl e) cs

def gmatchL (underH parentCont : Bool) : ElemList → List Elem
  | .nil => []
  | .cons c cs => gmatchEl underH parentCont c ++ gmatchL underH parentCont cs

end

def guardedMatches (d : Doc) : List Elem :=
  match d.docElem with
  | none => []
  | some r => gmatchEl false false r

/-- `document.querySelector('#home-header2 .container > div')`: the first
match in document order. -/
def querySelGuarded (d : Doc) : Option Elem := (guardedMatches d).head?

/-! ### Guard state, mutation observer, periodic check
(src/unnamed/part_000 lines 22, 152-185, 274-279) -/

/-- The module-level mutable state the guard keeps: the document and the
`stubEnsured` flag. -/
structure GState where
  doc : Doc
  stubEnsured : Bool

/-- `ensureStub` acting on the guard state: line 93 sets `stubEnsured = true`
on the (always-taken) success path. -/
def ensureStubS (s : GState) : GState × Bool :=
  ({ doc := (ensureStub s.doc).1, stubEnsured := true }, (ensureStub s.doc).2)

/-- Line 162: a removed node triggers the repair when it has the header id or
(being an element) contains a `#home-header2` descendant
(`node.querySelector('#home-header2')`). -/
def removalTriggers (n : Elem) : Bool :=
  n.idA == HEADER_ID || (findL (idIs HEADER_ID) n.children).isSome

/-- The mutation-observer callback (lines 155-175) applied to the removed
nodes of the delivered child-list records: when any removed node triggers,
`stubEnsured` is cleared and `ensureStub` runs. -/
def observerCallback (removed : List Elem) (s : GState) : GState :=
  if removed.any removalTriggers then
    (ensureStubS { s with stubEnsured := false }).1
  else s

/-- The periodic check (lines 274-279): when `stubEnsured` is false or the
header id no longer resolves, `ensureStub` runs. -/
def periodicCheck (s : GState) : GState :=
  if !s.stubEnsured || (getElementById s.doc HEADER_ID).isNone then
    (ensureStubS s).1
  else s

/-! ### Patched querySelector (lines 190-206) -/

/-- A single-element selector query: the selector's text together with its
lookup on a document (the host's `querySelector` for that selector). -/
structure Selector where
  str : String
  run : Doc → Option Elem

/-- The guarded selector with its lookup. -/
def guardedSelector : Selector :=
  { str := "#home-header2 .container > div", run := querySelGuarded }

/-- `Document.prototype.querySelector` as patched (lines 194-205): when the
underlying lookup returns null and the selector text contains
`home-header2`, run `ensureStub` and retry the lookup exactly once. -/
def patchedQuerySelector (sel : Selector) (d : Doc) : Doc × Option Elem :=
  match sel.run d with
  | some r => (d, some r)
  | none =>
    if strIncludes sel.str "home-header2" then
      ((ensureStub d).1, sel.run (ensureStub d).1)
    else (d, none)

/-! ### Click guard (lines 212-240) -/

def getAttr (e : Elem) (k : String) : Option String :=
  match e.attrs.find? (fun kv => kv.1 == k) with
  | some kv => some kv.2
  | none => none

/- `e.textContent`: the element's directly contained text followed by its
descendants' text. -/
mutual

def textContent (e : Elem) : String :=
  match e with
  | .mk _ _ _ _ x cs => x ++ textContentL cs

def textContentL : ElemList → String
  | .nil => ""
  | .cons c cs => textContent c ++ textContentL cs

end

/-- `target.matches('button, a, [role="button"]')` (line 220). -/
def matchesClickable (e : Elem) : Bool :=
  e.tag == "button" || e.tag == "a" || getAttr e "role" == some "button"

/-- Lines 219-223: the click target is a join button.  Note the predicate is
evaluated on the click target only; ancestors are never consulted.  The
`href` property read on line 223 is modelled as the `href` attribute (absent
for elements that have none, making the conjunct falsy as in the source). -/
def isJoinButton (t : Elem) : Bool :=
  matchesClickable t &&
    (strIncludes (textContent t) "Join session" ||
     strIncludes (textContent t) "Start meeting" ||
     (match getAttr t "href" with
      | some h => strIncludes h "zoom"
      | none => false))

/-- The capture-phase click listener (lines 214-237): its synchronous part.
With a null target it returns; with a join-button target it runs
`ensureStub` at once (the two `setTimeout` re-runs of `ensureStub` are the
same idempotent call later and are not part of the synchronous guarantee). -/
def clickGuardHandler (target : Option Elem) (d : Doc) : Doc :=
  match target with
  | none => d
  | some t => if isJoinButton t then (ensureStub d).1 else d

/-! ### console.error override (lines 26-39) -/

inductive ConsoleAction : Type where
  | warn (args : List String)
  | forward (args : List String)

def TAG : String := "[LegacyNotifGuard-v4]"

/-- The overriding `console.error` (lines 27-39): join the arguments with a
space; suppress (reroute to a tagged `console.warn`) the two known error
shapes; forward everything else to the original `console.error` unchanged. -/
def consoleErrorOverride (args : List String) : ConsoleAction :=
  let msg := String.intercalate " " args
  if strIncludes msg "lastChild" && strIncludes msg "home-header2" then
    .warn [TAG, "Suppressed error:", msg]
  else if strIncludes msg "updateTabletBadge" || strIncludes msg "initNotificationBadge" then
    .warn [TAG, "Suppressed notification badge error:", msg]
  else
    .forward args

/-- The claim's suppression condition, written from its own words. -/
def suppressCond (args : List String) : Bool :=
  let msg := String.intercalate " " args
  (strIncludes msg "lastChild" && strIncludes msg "home-header2") ||
    strIncludes msg "updateTabletBadge" || strIncludes msg "initNotificationBadge"

/-! ### safeWrap and wrapLegacyFunctions (lines 106-147) -/

inductive JSVal : Type where
  | null
  | undef
  | bool (b : Bool)
  | num (n : Int)
  | str (s : String)

/-- A legacy global function: this-binding and argument list to either a
normal return value or a thrown error. -/
def LegacyFn : Type := JSVal → List JSVal → Except String JSVal

/-- A function as observed after installation of the guard: it may touch the
document (via `ensureStub`), may still throw (`Except.error`), and may emit
`console.warn` lines. -/
def EffFn : Type := Doc → JSVal → List JSVal → Except String (Doc × JSVal) × List (List String)

/-- `safeWrap(fn, name)` (lines 106-116): run `ensureStub`, then the original
with the same this-binding and arguments; a throw from the original is
caught, logged via `console.warn`, and replaced by a `null` return. -/
def safeWrap (fn : LegacyFn) (name : String) : EffFn :=
  fun d this args =>
    match fn this args with
    | .ok v => (.ok ((ensureStub d).1, v), [])
    | .error err =>
      (.ok ((ensureStub d).1, JSVal.null),
       [[TAG, "Caught error in " ++ name ++ ":", err]])

/-- An unwrapped global function, embedded at the observed type: no
`ensureStub`, no catching, no logging. -/
def plainFn (fn : LegacyFn) : EffFn :=
  fun d this args =>
    match fn this args with
    | .ok v => (.ok (d, v), [])
    | .error err => (.error err, [])

def legacyFunctions : List String :=
  ["updateTabletBadge", "initNotificationBadge", "checkLoggedInUser",
   "updateNotificationCount", "refreshNotifications"]

/-- `wrapLegacyFunctions()` (lines 121-136) acting on the global function
table (`window` restricted to its function-valued names): every listed name
currently defined as a function is replaced by its `safeWrap`; every other
function keeps its behavior.  (The `Object.defineProperty` interception for
late-bound definitions, lines 139-146, applies the same `safeWrap` at
definition time and is outside the present claims.) -/
def wrapLegacyFunctions (w : String → Option LegacyFn) : String → Option EffFn :=
  fun name =>
    match w name with
    | some f =>
      some (if legacyFunctions.contains name then safeWrap f name else plainFn f)
    | none => none

/-! ### init (lines 246-282) -/

inductive InitAction : Type where
  | callEnsureStub
  | installFunctionGuards
  | installReadGuard
  | installClickGuard
  | startObserver
  | startPeriodic
deriving DecidableEq

/-- The actions `init()` performs, in source order, as three lists: the ones
run synchronously at first load, the ones the `DOMContentLoaded` listener
runs (empty when the document is already past `loading`, in which case its
stage runs synchronously), and the ones the window `load` listener runs.
`loading` is `document.readyState === 'loading'` at init time. -/
def initTrace (loading : Bool) :
    List InitAction × List InitAction × List InitAction :=
  if loading then
    ([.callEnsureStub, .installFunctionGuards, .installReadGuard,
      .installClickGuard, .startPeriodic],
     [.callEnsureStub, .startObserver],
     [.callEnsureStub])
  else
    ([.callEnsureStub, .installFunctionGuards, .installReadGuard,
      .installClickGuard, .callEnsureStub, .startObserver, .startPeriodic],
     [],
     [.callEnsureStub])

/-! ### The redirect round trip
(src/CAREGIVER_SESSION_FIX.md `handleJoinSession`, src/meeting-page-code.js)

The two scripts communicate through a URL query string.  The query codec —
the WHATWG application/x-www-form-urlencoded serializer used by
`URL.searchParams.set` / `toString` and the parser used by
`URLSearchParams(...).get` — is the host platform's, modelled here from its
specification: percent-encoding of the UTF-8 bytes of every character
outside the unreserved set, with space serialized as `+`. -/

/-- The UTF-8 bytes of a character. -/
def utf8Bytes (c : Char) : List Nat :=
  if c.toNat < 0x80 then [c.toNat]
  else if c.toNat < 0x800 then
    [0xC0 + c.toNat / 0x40, 0x80 + c.toNat % 0x40]
  else if c.toNat < 0x10000 then
    [0xE0 + c.toNat / 0x1000, 0x80 + c.toNat / 0x40 % 0x40,
     0x80 + c.toNat % 0x40]
  else
    [0xF0 + c.toNat / 0x40000, 0x80 + c.toNat / 0x1000 % 0x40,
     0x80 + c.toNat / 0x40 % 0x40, 0x80 + c.toNat % 0x40]

/-- A UTF-8 continuation byte. -/
def contByte (b : Nat) : Prop := 0x80 ≤ b ∧ b < 0xC0

instance (b : Nat) : Decidable (contByte b) := by
  unfold contByte; infer_instance

/- UTF-8 decoding of a byte list, as a streaming decoder: a lead byte fixes
the sequence length, and each pending continuation byte shifts into the
accumulated code point. -/
mutual

def utf8Decode : List Nat → Option (List Char)
  | [] => some []
  | b :: bs =>
    if b < 0x80 then (utf8Decode bs).map (fun l => Char.ofNat b :: l)
    else if b < 0xC0 then none
    else if b < 0xE0 then utf8Cont1 (b - 0xC0) bs
    else if b < 0xF0 then utf8Cont2 (b - 0xE0) bs
    else utf8Cont3 (b - 0xF0) bs

def utf8Cont1 (acc : Nat) : List Nat → Option (List Char)
  | [] => none
  | b :: bs =>
    if contByte b then
      (utf8Decode bs).map (fun l => Char.ofNat (acc * 0x40 + (b - 0x80)) :: l)
    else none

def utf8Cont2 (acc : Nat) : List Nat → Option (List Char)
  | [] => none
  | b :: bs =>
    if contByte b then utf8Cont1 (acc * 0x40 + (b - 0x80)) bs else none

def utf8Cont3 (acc : Nat) : List Nat → Option (List Char)
  | [] => none
  | b :: bs =>
    if contByte b then utf8Cont2 (acc * 0x40 + (b - 0x80)) bs else none

end

/-- The form-urlencoded unreserved set: ASCII alphanumerics and `*`, `-`,
`.`, `_`. -/
def isUnreserved (c : Char) : Bool :=
  (0x41 ≤ c.toNat && c.toNat ≤ 0x5A) || (0x61 ≤ c.toNat && c.toNat ≤ 0x7A) ||
    (0x30 ≤ c.toNat && c.toNat ≤ 0x39) ||
    c == '*' || c == '-' || c == '.' || c == '_'

def hexDigit (n : Nat) : Char :=
  (List.getD ['0', '1', '2', '3', '4', '5', '6', '7', '8', '9',
    'A', 'B', 'C', 'D', 'E', 'F'] n '0')

def hexVal (c : Char) : Option Nat :=
  if 0x30 ≤ c.toNat && c.toNat ≤ 0x39 then some (c.toNat - 0x30)
  else if 0x41 ≤ c.toNat && c.toNat ≤ 0x46 then some (c.toNat - 0x37)
  else if 0x61 ≤ c.toNat && c.toNat ≤ 0x66 then some (c.toNat - 0x57)
  else none

def encByte (b : Nat) : List Char := ['%', hexDigit (b / 16), hexDigit (b % 16)]

/-- Form-urlencoded serialization of one character. -/
def encChar (c : Char) : List Char :=
  if isUnreserved c then [c]
  else if c == ' ' then ['+']
  else ((utf8Bytes c).map encByte).flatten

def encStr (s : String) : List Char := (s.data.map encChar).flatten

/- Form-urlencoded byte decoding: `+` is a space, `%HH` a byte, any other
character stands for its own UTF-8 bytes. -/
mutual

def decBytes : List Char → Option (List Nat)
  | [] => some []
  | c :: rest =>
    if c == '+' then (decBytes rest).map (fun bs => 0x20 :: bs)
    else if c == '%' then decPct rest
    else (decBytes rest).map (fun bs => utf8Bytes c ++ bs)

def decPct : List Char → Option (List Nat)
  | h1 :: h2 :: rest =>
    match hexVal h1, hexVal h2 with
    | some v1, some v2 => (decBytes rest).map (fun bs => (v1 * 16 + v2) :: bs)
    | _, _ => none
  | _ => none

end

/-- Form-urlencoded decoding of one component. -/
def decStr (l : List Char) : Option String :=
  match decBytes l with
  | none => none
  | some bs =>
    match utf8Decode bs with
    | none => none
    | some cs => some (String.mk cs)

def serializePair (k v : String) : List Char := encStr k ++ '=' :: encStr v

/-- The query serializer: pairs joined with `&`. -/
def serializeQuery : List (String × String) → List Char
  | [] => []
  | [kv] => serializePair kv.1 kv.2
  | kv :: rest => serializePair kv.1 kv.2 ++ '&' :: serializeQuery rest

/-- Split at the first occurrence of `sep`; `none` when absent. -/
def breakAt (sep : Char) : List Char → Option (List Char × List Char)
  | [] => none
  | c :: cs =>
    if c == sep then some ([], cs)
    else (breakAt sep cs).map (fun p => (c :: p.1, p.2))

/-- Parse one `name=value` piece. -/
def parsePair (l : List Char) : Option (String × String) :=
  match breakAt '=' l with
  | some (k, v) =>
    match decStr k, decStr v with
    | some kd, some vd => some (kd, vd)
    | _, _ => none
  | none =>
    match decStr l with
    | some kd => some (kd, "")
    | none => none

def parsePairs : List (List Char) → Option (List (String × String))
  | [] => some []
  | p :: ps =>
    match parsePair p, parsePairs ps with
    | some kv, some rest => some (kv :: rest)
    | _, _ => none

def parseQuery (l : List Char) : Option (List (String × String)) :=
  parsePairs (splitChar '&' l [])

/-- `URLSearchParams.get(k)`: the value of the first pair named `k`. -/
def getParam (q : List (String × String)) (k : String) : Option String :=
  match q.find? (fun kv => kv.1 == k) with
  | some kv => some kv.2
  | none => none

/-- `URLSearchParams.set(k, v)`: overwrite the first pair named `k` and drop
later duplicates, or append when the name is absent. -/
def setParam : List (String × String) → String → String → List (String × String)
  | [], k, v => [(k, v)]
  | kv :: rest, k, v =>
    if kv.1 == k then (k, v) :: rest.filter (fun p => !(p.1 == k))
    else kv :: setParam rest k v

def isWsp (c : Char) : Bool :=
  c == ' ' || c == '\t' || c == '\n' || c == '\r'

/-- `String.prototype.trim` (over the common whitespace characters). -/
def trimStr (s : String) : String :=
  String.mk (((s.data.dropWhile isWsp).reverse.dropWhile isWsp).reverse)

/-- `handleJoinSession(zoomMeetingUrl, sessionIdParam)`
(CAREGIVER_SESSION_FIX.md lines 348-372): bail out (alert, no redirect) when
the meeting URL is missing or blank; otherwise build
`new URL('/meeting', origin)`, set `meetingUrl`, set `sessionId` when the
session id is truthy, and navigate to the serialized URL.  The result is the
destination URL string (`none` when no redirect happens).  A `none` /
empty-string argument models a JS falsy value. -/
def handleJoinSession (origin : String) (zoomMeetingUrl : Option String)
    (sessionIdParam : Option String) : Option String :=
  match zoomMeetingUrl with
  | none => none
  | some u =>
    if trimStr u == "" then none
    else
      let params := setParam [] "meetingUrl" u
      let params :=
        match sessionIdParam with
        | some sid => if sid == "" then params else setParam params "sessionId" sid
        | none => params
      some (origin ++ "/meeting?" ++ String.mk (serializeQuery params))

/-- `window.location.search` without its leading `?`, as `URLSearchParams`
receives it on the meeting page. -/
def searchOf (dest : String) : List Char :=
  match breakAt '?' dest.data with
  | some p => p.2
  | none => []

/-- meeting-page-code.js lines 19-20: `urlParams.get('meetingUrl')`. -/
def meetingPageMeetingUrl (dest : String) : Option String :=
  match parseQuery (searchOf dest) with
  | some q => getParam q "meetingUrl"
  | none => none

/-- meeting-page-code.js line 21: `urlParams.get('sessionId')`. -/
def meetingPageSessionId (dest : String) : Option String :=
  match parseQuery (searchOf dest) with
  | some q => getParam q "sessionId"
  | none => none

/-! ### The frame relation: a tree extends another when every existing node
keeps its fields and its children in order, and only new nodes are inserted. -/

mutual

inductive Ext : Elem → Elem → Prop where
  | mk (t i cl : String) (a : List (String × String)) (x : String)
       (cs cs2 : ElemList) :
      ExtL cs cs2 → Ext (.mk t i cl a x cs) (.mk t i cl a x cs2)

inductive ExtL : ElemList → ElemList → Prop where
  | nil : ExtL .nil .nil
  | cons (c c2 : Elem) (cs cs2 : ElemList) :
      Ext c c2 → ExtL cs cs2 → ExtL (.cons c cs) (.cons c2 cs2)
  | insert (c : Elem) (cs cs2 : ElemList) :
      ExtL cs cs2 → ExtL cs (.cons c cs2)

end

/-- The document after extends the document before: no node removed or
mutated, only insertions. -/
def DocExt (d d2 : Doc) : Prop :=
  match d.docElem, d2.docElem with
  | none, none => True
  | some r, some r2 => Ext r r2
  | _, _ => False

/-! ### Canonical stub chain and sample documents -/

/-- The inner div of a freshly created chain: a div holding the stub span. -/
def stubChainInner : Elem := appendChild newInnerDiv newStubSpan

/-- The container of a freshly created chain. -/
def stubChainContainer : Elem := ensureInner newContainer

/-- The header of a freshly created chain (what `ensureStub` builds from
nothing). -/
def stubChainHeader : Elem := fixHeader newHeader

/-- The root element of a document with an empty body and nothing else. -/
def emptyBodyRoot : Elem :=
  .mk "html" "" "" [] "" (.cons (.mk "body" "" "" [] "" .nil) .nil)

/-- A document with an empty body and nothing else. -/
def emptyBodyDoc : Doc := { docElem := some emptyBodyRoot }

/-- The empty-body document after one `ensureStub`: the canonical ensured
document. -/
def ensuredDoc : Doc := stubStep emptyBodyDoc

/-- A document in which external mutations have produced two complete
chains under the header: the header holds two containers, each with a
div-with-span chain. -/
def twoChainsDoc : Doc :=
  { docElem := some (.mk "html" "" "" [] ""
      (.cons (.mk "body" "" "" [] ""
        (.cons (.mk "div" HEADER_ID "" [] ""
          (.cons stubChainContainer (.cons stubChainContainer .nil))) .nil)) .nil)) }

/-- The ensured document after an external removal of the container: the
header is left childless. -/
def containerRemovedDoc : Doc :=
  { docElem := some (.mk "html" "" "" [] ""
      (.cons (.mk "body" "" "" [] ""
        (.cons (.mk "div" HEADER_ID ""
          [("style", headerStyle), ("data-legacy-guard", "v4")] "" .nil) .nil)) .nil)) }

/-- The ensured document after an external removal of the header root: the
body is left empty again. -/
def headerRemovedDoc : Doc := emptyBodyDoc

/-- A plain span whose text is exactly "Join session" (not a button, link or
role=button element). -/
def spanJoin : Elem := .mk "span" "" "" [] "Join session" .nil

/-- A genuine join button. -/
def joinButton : Elem := .mk "button" "" "" [] "Join session" .nil

/-- A document whose header exists and passes all of `ensureStub`'s checks,
but whose only div under the container is a grandchild, not a child: the
guarded selector `#home-header2 .container > div` matches nothing, and
`ensureStub` changes nothing. -/
def nestedDivDoc : Doc :=
  { docElem := some (.mk "html" "" "" [] ""
      (.cons (.mk "body" "" "" [] ""
        (.cons (.mk "div" HEADER_ID "" [] ""
          (.cons (.mk "div" "" "container" [] ""
            (.cons (.mk "span" "" "" [] ""
              (.cons (.mk "div" "" "" [] ""
                (.cons (.mk "span" "" "" [] "" .nil) .nil)) .nil)) .nil)) .nil)) .nil)) .nil)) }

/-- A predicate that reads only an element's own fields, never its
children; all selector predicates of the guard are of this kind. -/
def ShallowP (p : Elem → Bool) : Prop :=
  ∀ t i cl a x cs cs2, p (Elem.mk t i cl a x cs) = p (Elem.mk t i cl a x cs2)

/-- A legacy function that always throws. -/
def throwingFn : LegacyFn := fun _ _ => .error "boom"

/-- A window table defining one guarded name as the throwing function. -/
def sampleWindow : String → Option LegacyFn :=
  fun n => if n == "updateTabletBadge" then some throwingFn else none

/-! ## Theorems -/

theorem shallow_idIs (i : String) : ShallowP (idIs i) := by
  intro t i2 cl a x cs cs2; rfl

theorem shallow_isContainerEl : ShallowP isContainerEl := by
  intro t i cl a x cs cs2; rfl

theorem shallow_isDivEl : ShallowP isDivEl := by
  intro t i cl a x cs cs2; rfl

theorem shallow_isBody : ShallowP (fun e => e.tag == "body") := by
  intro t i cl a x cs cs2; rfl

theorem findNode_self (p : Elem → Bool) (x : Elem) (h : p x = true) :
    findNode p x = some x := by
  cases x with
  | mk t i cl a x cs => simp [findNode, h]

mutual

theorem findNode_sat (p : Elem → Bool) (e m : Elem)
    (h : findNode p e = some m) : p m = true := by
  cases e with
  | mk t i cl a x cs =>
    by_cases hp : p (Elem.mk t i cl a x cs) = true
    · have : Elem.mk t i cl a x cs = m := by
        rw [findNode_self p _ hp] at h
        exact Option.some.inj h
      rw [← this]; exact hp
    · have hp2 : p (Elem.mk t i cl a x cs) = false := by simpa using hp
      have hcs : findL p cs = some m := by simpa [findNode, hp2] using h
      exact findL_sat p cs m hcs

theorem findL_sat (p : Elem → Bool) (l : ElemList) (m : Elem)
    (h : findL p l = some m) : p m = true := by
  cases l with
  | nil => simp [findL] at h
  | cons c cs =>
    simp only [findL] at h
    cases hc : findNode p c with
    | some r => rw [hc] at h; cases h; exact findNode_sat p c m hc
    | none => rw [hc] at h; exact findL_sat p cs m h

end

theorem findNode_none_not (p : Elem → Bool) (e : Elem)
    (h : findNode p e = none) : p e = false := by
  cases e with
  | mk t i cl a x cs =>
    by_cases hp : p (Elem.mk t i cl a x cs) = true
    · simp [findNode, hp] at h
    · simpa using hp

theorem findNode_none_children (p : Elem → Bool) (e : Elem)
    (h : findNode p e = none) : findL p e.children = none := by
  cases e with
  | mk t i cl a x cs =>
    have hp := findNode_none_not p _ h
    simpa [findNode, hp, Elem.children] using h

theorem findL_cons_none (p : Elem → Bool) (c : Elem) (cs : ElemList)
    (h : findL p (.cons c cs) = none) :
    findNode p c = none ∧ findL p cs = none := by
  simp only [findL] at h
  cases hc : findNode p c with
  | some r => rw [hc] at h; cases h
  | none => rw [hc] at h; exact ⟨rfl, h⟩

theorem findL_app (p : Elem → Bool) :
    ∀ l1 l2 : ElemList, findL p (ElemList.app l1 l2) =
      (match findL p l1 with
       | some r => some r
       | none => findL p l2)
  | .nil, l2 => by simp [ElemList.app, findL]
  | .cons c cs, l2 => by
    simp only [ElemList.app, findL]
    cases hc : findNode p c with
    | some r => rfl
    | none => exact findL_app p cs l2

mutual

theorem updNode_none (p : Elem → Bool) (f : Elem → Elem) (e : Elem)
    (h : findNode p e = none) : updNode p f e = none := by
  cases e with
  | mk t i cl a x cs =>
    have hp := findNode_none_not p _ h
    have hcs : findL p cs = none := by simpa [findNode, hp] using h
    simp [updNode, hp, updL_none p f cs hcs]

theorem updL_none (p : Elem → Bool) (f : Elem → Elem) (l : ElemList)
    (h : findL p l = none) : updL p f l = none := by
  cases l with
  | nil => simp [updL]
  | cons c cs =>
    obtain ⟨h1, h2⟩ := findL_cons_none p c cs h
    simp [updL, updNode_none p f c h1, updL_none p f cs h2]

end

mutual

theorem updNode_self (p : Elem → Bool) (f : Elem → Elem) (e m : Elem)
    (h : findNode p e = some m) (hf : f m = m) : updNode p f e = some e := by
  cases e with
  | mk t i cl a x cs =>
    by_cases hp : p (Elem.mk t i cl a x cs) = true
    · have hm : m = Elem.mk t i cl a x cs := by
        rw [findNode_self p _ hp] at h
        exact (Option.some.inj h).symm
      subst hm
      simp [updNode, hp, hf]
    · have hp2 : p (Elem.mk t i cl a x cs) = false := by simpa using hp
      have hcs : findL p cs = some m := by simpa [findNode, hp2] using h
      simp [updNode, hp2, updL_self p f cs m hcs hf]

theorem updL_self (p : Elem → Bool) (f : Elem → Elem) (l : ElemList) (m : Elem)
    (h : findL p l = some m) (hf : f m = m) : updL p f l = some l := by
  cases l with
  | nil => simp [findL] at h
  | cons c cs =>
    simp only [findL] at h
    cases hc : findNode p c with
    | some r =>
      rw [hc] at h
      cases h
      simp [updL, updNode_self p f c m hc hf]
    | none =>
      rw [hc] at h
      simp [updL, updNode_none p f c hc, updL_self p f cs m h hf]

end

mutual

theorem updNode_found (p : Elem → Bool) (f : Elem → Elem) (hs : ShallowP p)
    (e m : Elem) (h : findNode p e = some m) :
    ∃ e2, updNode p f e = some e2 ∧
      (p (f m) = true → findNode p e2 = some (f m)) := by
  cases e with
  | mk t i cl a x cs =>
    by_cases hp : p (Elem.mk t i cl a x cs) = true
    · have hm : m = Elem.mk t i cl a x cs := by
        rw [findNode_self p _ hp] at h
        exact (Option.some.inj h).symm
      subst hm
      exact ⟨f (Elem.mk t i cl a x cs), by simp [updNode, hp],
        fun hf => findNode_self p _ hf⟩
    · have hp2 : p (Elem.mk t i cl a x cs) = false := by simpa using hp
      have hcs : findL p cs = some m := by simpa [findNode, hp2] using h
      obtain ⟨cs2, hu, hf⟩ := updL_found p f hs cs m hcs
      refine ⟨Elem.mk t i cl a x cs2, by simp [updNode, hp2, hu], ?_⟩
      intro hfm
      have hp3 : p (Elem.mk t i cl a x cs2) = false := by
        rw [hs t i cl a x cs2 cs]; exact hp2
      simp [findNode, hp3, hf hfm]

theorem updL_found (p : Elem → Bool) (f : Elem → Elem) (hs : ShallowP p)
    (l : ElemList) (m : Elem) (h : findL p l = some m) :
    ∃ l2, updL p f l = some l2 ∧
      (p (f m) = true → findL p l2 = some (f m)) := by
  cases l with
  | nil => simp [findL] at h
  | cons c cs =>
    simp only [findL] at h
    cases hc : findNode p c with
    | some r =>
      rw [hc] at h
      cases h
      obtain ⟨c2, hu, hf⟩ := updNode_found p f hs c m hc
      refine ⟨.cons c2 cs, by simp [updL, hu], ?_⟩
      intro hfm
      simp [findL, hf hfm]
    | none =>
      rw [hc] at h
      obtain ⟨cs2, hu, hf⟩ := updL_found p f hs cs m h
      refine ⟨.cons c cs2, by simp [updL, updNode_none p f c hc, hu], ?_⟩
      intro hfm
      simp [findL, hc, hf hfm]

end

/-! ### Field preservation -/

theorem updDesc_fields (p : Elem → Bool) (f : Elem → Elem) (e : Elem) :
    (updDesc p f e).tag = e.tag ∧ (updDesc p f e).idA = e.idA ∧
      (updDesc p f e).className = e.className := by
  cases e with
  | mk t i cl a x cs =>
    simp only [updDesc]
    cases updL p f cs <;> simp [Elem.tag, Elem.idA, Elem.className]

theorem appendChild_fields (e c : Elem) :
    (appendChild e c).tag = e.tag ∧ (appendChild e c).idA = e.idA ∧
      (appendChild e c).className = e.className := by
  cases e with
  | mk t i cl a x cs => simp [appendChild, Elem.tag, Elem.idA, Elem.className]

theorem ensureMarker_tag (dv : Elem) : (ensureMarker dv).tag = dv.tag := by
  unfold ensureMarker
  by_cases h : lastChildNull dv = true
  · simp [h, (appendChild_fields dv newStubSpan).1]
  · simp [Bool.of_not_eq_true h]

theorem ensureInner_className (c : Elem) :
    (ensureInner c).className = c.className := by
  unfold ensureInner
  cases qselDesc isDivEl c with
  | some dv => exact (updDesc_fields _ _ c).2.2
  | none =>
    simp only
    rw [(updDesc_fields _ _ _).2.2, (appendChild_fields c newInnerDiv).2.2]

theorem fixHeader_idA (h : Elem) : (fixHeader h).idA = h.idA := by
  unfold fixHeader
  cases qselDesc isContainerEl h with
  | some c => exact (updDesc_fields _ _ h).2.1
  | none =>
    simp only
    rw [(updDesc_fields _ _ _).2.1, (appendChild_fields h newContainer).2.1]

theorem hasClass_congr (e e2 : Elem) (cl : String)
    (h : e.className = e2.className) : hasClass e cl = hasClass e2 cl := by
  unfold hasClass; rw [h]

theorem isDivEl_ensureMarker (dv : Elem) (h : isDivEl dv = true) :
    isDivEl (ensureMarker dv) = true := by
  unfold isDivEl at h ⊢
  rw [ensureMarker_tag]; exact h

theorem isContainerEl_ensureInner (c : Elem) (h : isContainerEl c = true) :
    isContainerEl (ensureInner c) = true := by
  unfold isContainerEl at h ⊢
  rw [hasClass_congr _ c _ (ensureInner_className c)]; exact h

theorem isEmpty_app_single (cs : ElemList) (c : Elem) :
    (cs.app (.cons c .nil)).isEmpty = false := by
  cases cs <;> simp [ElemList.app, ElemList.isEmpty]

theorem lastChildNull_appendChild (e c : Elem) :
    lastChildNull (appendChild e c) = false := by
  cases e with
  | mk t i cl a x cs =>
    simp [appendChild, lastChildNull, Elem.children, Elem.text,
      isEmpty_app_single]

theorem lastChildNull_ensureMarker (dv : Elem) :
    lastChildNull (ensureMarker dv) = false := by
  unfold ensureMarker
  cases hl : lastChildNull dv
  · simp [hl]
  · simp [lastChildNull_appendChild]

theorem updDesc_self (p : Elem → Bool) (f : Elem → Elem) (e m : Elem)
    (h : findL p e.children = some m) (hf : f m = m) : updDesc p f e = e := by
  cases e with
  | mk t i cl a x cs =>
    have hcs : findL p cs = some m := h
    simp [updDesc, updL_self p f cs m hcs hf]

theorem innerOK_ensureInner (c : Elem) : innerOK (ensureInner c) = true := by
  unfold ensureInner
  cases hq : qselDesc isDivEl c with
  | some dv =>
    have hdv : isDivEl dv = true := findL_sat _ _ _ hq
    cases c with
    | mk t i cl a x cs =>
      have hcs : findL isDivEl cs = some dv := hq
      obtain ⟨cs2, hu, hf⟩ :=
        updL_found isDivEl ensureMarker shallow_isDivEl cs dv hcs
      have hfm := hf (isDivEl_ensureMarker dv hdv)
      simp [updDesc, hu, innerOK, qselDesc, Elem.children, hfm,
        lastChildNull_ensureMarker]
  | none =>
    cases c with
    | mk t i cl a x cs =>
      have hcs : findL isDivEl cs = none := hq
      have happ : findL isDivEl (cs.app (.cons newInnerDiv .nil)) =
          some newInnerDiv := by
        rw [findL_app]
        simp [hcs, findL, findNode_self isDivEl newInnerDiv (by decide)]
      obtain ⟨cs2, hu, hf⟩ :=
        updL_found isDivEl ensureMarker shallow_isDivEl _ newInnerDiv happ
      have hfm := hf (isDivEl_ensureMarker newInnerDiv (by decide))
      simp [appendChild, updDesc, hu, innerOK, qselDesc, Elem.children, hfm,
        lastChildNull_ensureMarker]

theorem headerOK_fixHeader (h : Elem) : headerOK (fixHeader h) = true := by
  unfold fixHeader
  cases hq : qselDesc isContainerEl h with
  | some c =>
    have hc : isContainerEl c = true := findL_sat _ _ _ hq
    cases h with
    | mk t i cl a x cs =>
      have hcs : findL isContainerEl cs = some c := hq
      obtain ⟨cs2, hu, hf⟩ :=
        updL_found isContainerEl ensureInner shallow_isContainerEl cs c hcs
      have hfm := hf (isContainerEl_ensureInner c hc)
      simp [updDesc, hu, headerOK, qselDesc, Elem.children, hfm,
        innerOK_ensureInner]
  | none =>
    cases h with
    | mk t i cl a x cs =>
      have hcs : findL isContainerEl cs = none := hq
      have happ : findL isContainerEl (cs.app (.cons newContainer .nil)) =
          some newContainer := by
        rw [findL_app]
        simp [hcs, findL, findNode_self isContainerEl newContainer (by decide)]
      obtain ⟨cs2, hu, hf⟩ :=
        updL_found isContainerEl ensureInner shallow_isContainerEl _
          newContainer happ
      have hfm := hf (isContainerEl_ensureInner newContainer (by decide))
      simp [appendChild, updDesc, hu, headerOK, qselDesc, Elem.children, hfm,
        innerOK_ensureInner]

theorem ensureInner_noop (c : Elem) (h : innerOK c = true) :
    ensureInner c = c := by
  cases hq : qselDesc isDivEl c with
  | none => unfold innerOK at h; rw [hq] at h; simp at h
  | some dv =>
    have hdv : lastChildNull dv = false := by
      cases hl : lastChildNull dv
      · rfl
      · unfold innerOK at h; rw [hq] at h; simp [hl] at h
    have hm : ensureMarker dv = dv := by unfold ensureMarker; simp [hdv]
    unfold ensureInner
    rw [hq]
    exact updDesc_self _ _ c dv hq hm

theorem fixHeader_noop (h : Elem) (hok : headerOK h = true) :
    fixHeader h = h := by
  cases hq : qselDesc isContainerEl h with
  | none => unfold headerOK at hok; rw [hq] at hok; simp at hok
  | some c =>
    have hok2 : innerOK c = true := by
      unfold headerOK at hok; rw [hq] at hok; exact hok
    unfold fixHeader
    rw [hq]
    exact updDesc_self _ _ h c hq (ensureInner_noop c hok2)

/-! ### Doc-level lemmas -/

theorem ensureStub_snd (d : Doc) : (ensureStub d).2 = true := by
  unfold ensureStub
  cases getElementById d HEADER_ID <;> rfl

theorem ensureStub_noop (d : Doc) (h : ensuredOK d = true) :
    ensureStub d = (d, true) := by
  cases hg : getElementById d HEADER_ID with
  | none => unfold ensuredOK at h; rw [hg] at h; simp at h
  | some h0 =>
    have hok : headerOK h0 = true := by
      unfold ensuredOK at h; rw [hg] at h; exact h
    unfold ensureStub
    rw [hg]
    cases d with
    | mk de =>
      cases de with
      | none => simp [getElementById] at hg
      | some r =>
        have hf : findNode (idIs HEADER_ID) r = some h0 := by
          simpa [getElementById] using hg
        have hu := updNode_self (idIs HEADER_ID) fixHeader r h0 hf
          (fixHeader_noop h0 hok)
        simp [updDoc, hu]

theorem findL_updTop_prepend (p q : Elem → Bool) (hs : ShallowP p) (nh : Elem)
    (hnh : p nh = true) :
    ∀ (cs : ElemList) (b : Elem), findTopChild q cs = some b →
      findL p cs = none →
      findL p (updTopChild q (fun x => prependChild x nh) cs) = some nh
  | .nil, b, ht, _ => by simp [findTopChild] at ht
  | .cons c cs, b, ht, hn => by
    obtain ⟨hc, hcs⟩ := findL_cons_none p c cs hn
    by_cases hqc : q c = true
    · cases c with
      | mk t i cl a x kids =>
        have hpc : p (Elem.mk t i cl a x kids) = false :=
          findNode_none_not p _ hc
        have hpc2 : p (Elem.mk t i cl a x (.cons nh kids)) = false := by
          rw [hs t i cl a x (.cons nh kids) kids]; exact hpc
        simp [updTopChild, hqc, prependChild, findL, findNode, hpc2,
          findNode_self p nh hnh]
    · have hqc2 : q c = false := by simpa using hqc
      have ht2 : findTopChild q cs = some b := by
        simpa [findTopChild, hqc2] using ht
      simp [updTopChild, hqc2, findL, hc,
        findL_updTop_prepend p q hs nh hnh cs b ht2 hcs]

theorem insertHeader_find (d : Doc) (r : Elem) (hd : d.docElem = some r)
    (hg : getElementById d HEADER_ID = none) :
    ∃ r1, (insertHeader d).docElem = some r1 ∧
      findNode (idIs HEADER_ID) r1 = some newHeader := by
  have hfr : findNode (idIs HEADER_ID) r = none := by
    simpa [getElementById, hd] using hg
  have hcs : findL (idIs HEADER_ID) r.children = none :=
    findNode_none_children _ _ hfr
  unfold insertHeader
  cases hb : bodyOf d with
  | some b =>
    rw [hd]
    cases r with
    | mk t i cl a x cs =>
      refine ⟨_, rfl, ?_⟩
      have hpr : idIs HEADER_ID (Elem.mk t i cl a x cs) = false :=
        findNode_none_not _ _ hfr
      have hp2 : idIs HEADER_ID (Elem.mk t i cl a x
          (updTopChild (fun e => e.tag == "body")
            (fun b2 => prependChild b2 newHeader) cs)) = false := by
        rw [shallow_idIs HEADER_ID t i cl a x _ cs]; exact hpr
      have hbt : findTopChild (fun e => e.tag == "body") cs = some b := by
        simpa [bodyOf, hd, Elem.children] using hb
      have hcs2 : findL (idIs HEADER_ID) cs = none := hcs
      simp only [findNode, hp2, Bool.false_eq_true, if_false]
      exact findL_updTop_prepend _ _ (shallow_idIs _) newHeader (by decide)
        cs b hbt hcs2
  | none =>
    rw [hd]
    refine ⟨appendChild r newHeader, rfl, ?_⟩
    cases r with
    | mk t i cl a x cs =>
      have hpr : idIs HEADER_ID (Elem.mk t i cl a x cs) = false :=
        findNode_none_not _ _ hfr
      have hp2 : idIs HEADER_ID (Elem.mk t i cl a x
          (cs.app (.cons newHeader .nil))) = false := by
        rw [shallow_idIs HEADER_ID t i cl a x _ cs]; exact hpr
      have hcs2 : findL (idIs HEADER_ID) cs = none := hcs
      simp only [appendChild, findNode, hp2, Bool.false_eq_true, if_false]
      rw [findL_app]
      simp [hcs2, findL, findNode_self (idIs HEADER_ID) newHeader (by decide)]

theorem ensureStub_ensures (d : Doc) (r : Elem) (hd : d.docElem = some r) :
    ensuredOK (stubStep d) = true := by
  cases hg : getElementById d HEADER_ID with
  | some h0 =>
    have hfr : findNode (idIs HEADER_ID) r = some h0 := by
      simpa [getElementById, hd] using hg
    have hp0 : idIs HEADER_ID h0 = true := findNode_sat _ _ _ hfr
    obtain ⟨r2, hu, hf⟩ :=
      updNode_found (idIs HEADER_ID) fixHeader (shallow_idIs _) r h0 hfr
    have hpf : idIs HEADER_ID (fixHeader h0) = true := by
      unfold idIs at hp0 ⊢; rw [fixHeader_idA]; exact hp0
    have hf2 := hf hpf
    unfold stubStep ensureStub
    rw [hg]
    simp [updDoc, hd, hu, ensuredOK, getElementById, hf2, headerOK_fixHeader]
  | none =>
    obtain ⟨r1, hr1, hfind⟩ := insertHeader_find d r hd hg
    obtain ⟨r2, hu, hf⟩ :=
      updNode_found (idIs HEADER_ID) fixHeader (shallow_idIs _) r1 newHeader
        hfind
    have hpf : idIs HEADER_ID (fixHeader newHeader) = true := by
      unfold idIs; rw [fixHeader_idA]; decide
    have hf2 := hf hpf
    unfold stubStep ensureStub
    rw [hg]
    simp [updDoc, hr1, hu, ensuredOK, getElementById, hf2, headerOK_fixHeader]

theorem stubStep_none (d : Doc) (hd : d.docElem = none) : stubStep d = d := by
  have hg : getElementById d HEADER_ID = none := by simp [getElementById, hd]
  have hb : bodyOf d = none := by simp [bodyOf, hd]
  unfold stubStep ensureStub
  rw [hg]
  simp [insertHeader, hb, hd, updDoc]

theorem stubStep_idem (d : Doc) : stubStep (stubStep d) = stubStep d := by
  cases hd : d.docElem with
  | none => rw [stubStep_none d hd, stubStep_none d hd]
  | some r =>
    have h2 := ensureStub_ensures d r hd
    have h3 := ensureStub_noop _ h2
    show (ensureStub (stubStep d)).1 = stubStep d
    rw [h3]

theorem stubIter_succ (n : Nat) (d : Doc) : stubIter (n + 1) d = stubStep d := by
  induction n generalizing d with
  | zero => rfl
  | succ k ih =>
    show stubIter (k + 1) (stubStep d) = stubStep d
    rw [ih (stubStep d), stubStep_idem]

/-! ### Frame lemmas: `ensureStub` only inserts -/

mutual

theorem ext_refl (e : Elem) : Ext e e := by
  cases e with
  | mk t i cl a x cs => exact .mk t i cl a x cs cs (extL_refl cs)

theorem extL_refl (l : ElemList) : ExtL l l := by
  cases l with
  | nil => exact .nil
  | cons c cs => exact .cons c c cs cs (ext_refl c) (extL_refl cs)

end

mutual

theorem ext_trans (e1 e2 e3 : Elem) (h12 : Ext e1 e2) (h23 : Ext e2 e3) :
    Ext e1 e3 := by
  cases h23 with
  | mk t i cl a x cs2 cs3 hl23 =>
    cases h12 with
    | mk _ _ _ _ _ cs1 _ hl12 =>
      exact .mk t i cl a x cs1 cs3 (extL_trans _ _ _ hl12 hl23)

theorem extL_trans (l1 l2 l3 : ElemList) (h12 : ExtL l1 l2) (h23 : ExtL l2 l3) :
    ExtL l1 l3 := by
  cases h23 with
  | nil => exact h12
  | cons c2 c3 cs2 cs3 he23 hl23 =>
    cases h12 with
    | cons c1 _ cs1 _ he12 hl12 =>
      exact .cons c1 c3 cs1 cs3 (ext_trans _ _ _ he12 he23)
        (extL_trans _ _ _ hl12 hl23)
    | insert _ _ _ hl12 =>
      exact .insert c3 l1 cs3 (extL_trans _ _ _ hl12 hl23)
  | insert c3 _ cs3 hl23 =>
    exact .insert c3 l1 cs3 (extL_trans _ _ _ h12 hl23)

end

theorem extL_app_single : ∀ (cs : ElemList) (c : Elem),
    ExtL cs (cs.app (.cons c .nil))
  | .nil, c => .insert c .nil .nil .nil
  | .cons c1 cs1, c =>
    .cons c1 c1 cs1 _ (ext_refl c1) (extL_app_single cs1 c)

theorem ext_appendChild (e c : Elem) : Ext e (appendChild e c) := by
  cases e with
  | mk t i cl a x cs =>
    exact .mk t i cl a x cs _ (extL_app_single cs c)

theorem ext_prependChild (e c : Elem) : Ext e (prependChild e c) := by
  cases e with
  | mk t i cl a x cs =>
    exact .mk t i cl a x cs _ (.insert c cs cs (extL_refl cs))

mutual

theorem updNode_ext (p : Elem → Bool) (f : Elem → Elem)
    (hext : ∀ m, Ext m (f m)) (e e2 : Elem) (h : updNode p f e = some e2) :
    Ext e e2 := by
  cases e with
  | mk t i cl a x cs =>
    by_cases hp : p (Elem.mk t i cl a x cs) = true
    · have : e2 = f (Elem.mk t i cl a x cs) := by
        simp [updNode, hp] at h; exact h.symm
      rw [this]; exact hext _
    · have hp2 : p (Elem.mk t i cl a x cs) = false := by simpa using hp
      simp only [updNode, hp2, Bool.false_eq_true, if_false] at h
      cases hu : updL p f cs with
      | none => rw [hu] at h; cases h
      | some cs2 =>
        rw [hu] at h
        cases h
        exact .mk t i cl a x cs cs2 (updL_ext p f hext cs cs2 hu)

theorem updL_ext (p : Elem → Bool) (f : Elem → Elem)
    (hext : ∀ m, Ext m (f m)) (l l2 : ElemList) (h : updL p f l = some l2) :
    ExtL l l2 := by
  cases l with
  | nil => simp [updL] at h
  | cons c cs =>
    simp only [updL] at h
    cases hc : updNode p f c with
    | some c2 =>
      rw [hc] at h
      cases h
      exact .cons c c2 cs cs (updNode_ext p f hext c c2 hc) (extL_refl cs)
    | none =>
      rw [hc] at h
      cases hu : updL p f cs with
      | none => rw [hu] at h; cases h
      | some cs2 =>
        rw [hu] at h
        cases h
        exact .cons c c cs cs2 (ext_refl c) (updL_ext p f hext cs cs2 hu)

end

theorem updDesc_ext (p : Elem → Bool) (f : Elem → Elem)
    (hext : ∀ m, Ext m (f m)) (e : Elem) : Ext e (updDesc p f e) := by
  cases e with
  | mk t i cl a x cs =>
    simp only [updDesc]
    cases hu : updL p f cs with
    | none => exact ext_refl _
    | some cs2 => exact .mk t i cl a x cs cs2 (updL_ext p f hext cs cs2 hu)

theorem ensureMarker_ext (dv : Elem) : Ext dv (ensureMarker dv) := by
  unfold ensureMarker
  cases lastChildNull dv
  · simpa using ext_refl dv
  · simpa using ext_appendChild dv newStubSpan

theorem ensureInner_ext (c : Elem) : Ext c (ensureInner c) := by
  unfold ensureInner
  cases qselDesc isDivEl c with
  | some dv => exact updDesc_ext _ _ ensureMarker_ext c
  | none =>
    exact ext_trans _ _ _ (ext_appendChild c newInnerDiv)
      (updDesc_ext _ _ ensureMarker_ext _)

theorem fixHeader_ext (h : Elem) : Ext h (fixHeader h) := by
  unfold fixHeader
  cases qselDesc isContainerEl h with
  | some c => exact updDesc_ext _ _ ensureInner_ext h
  | none =>
    exact ext_trans _ _ _ (ext_appendChild h newContainer)
      (updDesc_ext _ _ ensureInner_ext _)

theorem updTopChild_ext (q : Elem → Bool) (g : Elem → Elem)
    (hg : ∀ b, Ext b (g b)) :
    ∀ cs : ElemList, ExtL cs (updTopChild q g cs)
  | .nil => .nil
  | .cons c cs => by
    by_cases hq : q c = true
    · simp only [updTopChild, hq, if_true]
      exact .cons c (g c) cs cs (hg c) (extL_refl cs)
    · have hq2 : q c = false := by simpa using hq
      simp only [updTopChild, hq2, Bool.false_eq_true, if_false]
      exact .cons c c cs _ (ext_refl c) (updTopChild_ext q g hg cs)

theorem docExt_refl (d : Doc) : DocExt d d := by
  cases d with
  | mk de =>
    cases de with
    | none => trivial
    | some r => exact ext_refl r

theorem docExt_trans (d1 d2 d3 : Doc) (h12 : DocExt d1 d2) (h23 : DocExt d2 d3) :
    DocExt d1 d3 := by
  cases d1 with
  | mk de1 =>
    cases d2 with
    | mk de2 =>
      cases d3 with
      | mk de3 =>
        cases de1 <;> cases de2 <;> cases de3 <;> simp_all [DocExt]
        exact ext_trans _ _ _ h12 h23

theorem insertHeader_ext (d : Doc) : DocExt d (insertHeader d) := by
  unfold insertHeader
  cases hb : bodyOf d with
  | some b =>
    cases d with
    | mk de =>
      cases de with
      | none => exact docExt_refl _
      | some r =>
        cases r with
        | mk t i cl a x cs =>
          exact Ext.mk t i cl a x cs _
            (updTopChild_ext _ _ (fun b2 => ext_prependChild b2 newHeader) cs)
  | none =>
    cases d with
    | mk de =>
      cases de with
      | none => exact docExt_refl _
      | some r => exact ext_appendChild r newHeader

theorem updDoc_ext (d : Doc) (p : Elem → Bool) (f : Elem → Elem)
    (hext : ∀ m, Ext m (f m)) : DocExt d (updDoc d p f) := by
  cases d with
  | mk de =>
    cases de with
    | none => exact docExt_refl _
    | some r =>
      cases hu : updNode p f r with
      | none =>
        simp only [updDoc, hu]
        exact docExt_refl _
      | some r2 =>
        simp only [updDoc, hu]
        exact updNode_ext p f hext r r2 hu

/-! ## Claim theorems -/

/-- C1: as stated the claim is false — external mutations can leave more
than one selector-reachable chain and `ensureStub` never removes the extra
one.  Here, after a call on a document holding two complete chains, both
remain: the call changes nothing, yet the match count is 2, not 1. -/
theorem c1_counterexample :
    ensureStub twoChainsDoc = (twoChainsDoc, true) ∧
    (guardedMatches twoChainsDoc).length = 2 := by
  exact ⟨rfl, by decide⟩

/-- C1 (amended): without interleaved external mutations `ensureStub` is
idempotent — any `n ≥ 1` iterations produce the document of a single call —
and when the chain already fully exists (the code's own four checks pass) a
call returns `true`, leaves the document unchanged and creates no nodes. -/
theorem c1_stub_idempotent (d : Doc) (n : Nat) (hn : 1 ≤ n) :
    stubIter n d = stubStep d ∧
    (ensuredOK d = true →
      ensureStub d = (d, true) ∧ nodeCountDoc (stubStep d) = nodeCountDoc d) := by
  constructor
  · obtain ⟨m, rfl⟩ : ∃ m, n = m + 1 := ⟨n - 1, by omega⟩
    exact stubIter_succ m d
  · intro h
    have h2 := ensureStub_noop d h
    refine ⟨h2, ?_⟩
    unfold stubStep
    rw [h2]

/-- C1 witness: three iterated calls on the canonical ensured document equal
one call, and a call there is a no-op with unchanged node count. -/
theorem c1_stub_idempotent_witness :
    stubIter 3 ensuredDoc = stubStep ensuredDoc ∧
    ensureStub ensuredDoc = (ensuredDoc, true) ∧
    nodeCountDoc (stubStep ensuredDoc) = nodeCountDoc ensuredDoc := by
  have h := c1_stub_idempotent ensuredDoc 3 (by decide)
  have h2 := h.2 (by decide)
  exact ⟨h.1, h2.1, h2.2⟩

/-- C2: as stated the claim is false.  Starting from the ensured document and
removing the container (a non-root chain node), the delivered mutation record
does not trigger the observer (the removed node neither has the header id nor
contains it), and the periodic check does not fire either (`stubEnsured` is
still true and the header id still resolves): the chain stays broken. -/
theorem c2_counterexample :
    ensuredOK ensuredDoc = true ∧
    observerCallback [stubChainContainer] ⟨containerRemovedDoc, true⟩ =
      ⟨containerRemovedDoc, true⟩ ∧
    periodicCheck ⟨containerRemovedDoc, true⟩ = ⟨containerRemovedDoc, true⟩ ∧
    ensuredOK containerRemovedDoc = false := by
  exact ⟨by decide, rfl, rfl, by decide⟩

/-- C2 (amended): the observer restores the full chain within one callback
when some removed node carries the header id or contains the header; the
periodic check restores it when `stubEnsured` is false or the header id no
longer resolves; a removal batch with no such node leaves the state untouched
(removals of the container, inner div or leaf alone are repaired by neither
path). -/
theorem c2_self_healing (s : GState) (r : Elem) (removed : List Elem)
    (hd : s.doc.docElem = some r) :
    (removed.any removalTriggers = true →
      ensuredOK (observerCallback removed s).doc = true) ∧
    ((s.stubEnsured = false ∨ getElementById s.doc HEADER_ID = none) →
      ensuredOK (periodicCheck s).doc = true) ∧
    (removed.any removalTriggers = false → observerCallback removed s = s) := by
  refine ⟨?_, ?_, ?_⟩
  · intro hany
    simp only [observerCallback, hany, if_true]
    show ensuredOK (stubStep s.doc) = true
    exact ensureStub_ensures s.doc r hd
  · intro hcond
    have hc : (!s.stubEnsured || (getElementById s.doc HEADER_ID).isNone) = true := by
      cases hcond with
      | inl h => simp [h]
      | inr h => simp [h]
    simp only [periodicCheck, hc, if_true]
    show ensuredOK (stubStep s.doc) = true
    exact ensureStub_ensures s.doc r hd
  · intro hany
    simp [observerCallback, hany]

/-- C2 witness: removing the header root from the ensured document is
repaired by the observer callback, and the periodic check repairs a
not-ensured state. -/
theorem c2_self_healing_witness :
    ensuredOK (observerCallback [stubChainHeader] ⟨headerRemovedDoc, true⟩).doc = true ∧
    ensuredOK (periodicCheck ⟨headerRemovedDoc, false⟩).doc = true := by
  exact ⟨(c2_self_healing ⟨headerRemovedDoc, true⟩ emptyBodyRoot
      [stubChainHeader] rfl).1 (by decide),
    (c2_self_healing ⟨headerRemovedDoc, false⟩ emptyBodyRoot [] rfl).2.1
      (Or.inl rfl)⟩

/-- C3: as stated the claim is false — the listener tests the click target
only, and requires it to match `button, a, [role="button"]`.  A click whose
target is a plain span with text exactly "Join session" does not trigger
`ensureStub`, and the stub does not exist after dispatch. -/
theorem c3_counterexample :
    textContent spanJoin = "Join session" ∧
    clickGuardHandler (some spanJoin) emptyBodyDoc = emptyBodyDoc ∧
    ensuredOK emptyBodyDoc = false := by
  exact ⟨rfl, rfl, by decide⟩

/-- C3 (amended): when the click target itself matches
`button, a, [role="button"]` and its text content contains "Join session",
the capture-phase listener runs `ensureStub` synchronously, so the code's
four chain checks pass immediately after dispatch (ancestors of the target
are never consulted). -/
theorem c3_click_guard (t : Elem) (d : Doc) (r : Elem)
    (hmatch : matchesClickable t = true)
    (htext : strIncludes (textContent t) "Join session" = true)
    (hd : d.docElem = some r) :
    ensuredOK (clickGuardHandler (some t) d) = true := by
  have hj : isJoinButton t = true := by
    unfold isJoinButton
    rw [hmatch, htext]
    simp
  simp only [clickGuardHandler, hj, if_true]
  exact ensureStub_ensures d r hd

/-- C3 witness: a click on a genuine join button over the empty-body document
leaves the chain ensured. -/
theorem c3_click_guard_witness :
    ensuredOK (clickGuardHandler (some joinButton) emptyBodyDoc) = true := by
  exact c3_click_guard joinButton emptyBodyDoc emptyBodyRoot (by decide)
    (by decide) rfl

/-- C4: `ensureStub` is total and always reaches `return true` — nothing in
its body can throw, so no exception passes its boundary for any document
state, including one with no body — and on any document that has a document
element (in particular once a body exists) a single call makes all four
level checks pass. -/
theorem c4_never_throws (d : Doc) :
    (ensureStub d).2 = true ∧
    (∀ r, d.docElem = some r → ensuredOK (stubStep d) = true) := by
  exact ⟨ensureStub_snd d, fun r hr => ensureStub_ensures d r hr⟩

/-- C4 witness: the degenerate document without even a document element
returns `true`, and the cold-start empty-body document gets the full chain. -/
theorem c4_never_throws_witness :
    (ensureStub { docElem := none }).2 = true ∧
    ensuredOK (stubStep emptyBodyDoc) = true := by
  exact ⟨(c4_never_throws { docElem := none }).1,
    (c4_never_throws emptyBodyDoc).2 emptyBodyRoot rfl⟩

/-- C5: as stated the claim is false — the periodic interval is installed
synchronously at first load (stage 4 of `init` runs unconditionally), not at
the structural-ready transition; only the mutation observer waits for
`DOMContentLoaded`. -/
theorem c5_counterexample :
    InitAction.startPeriodic ∈ (initTrace true).1 ∧
    InitAction.startObserver ∉ (initTrace true).1 := by
  decide

/-- C5 (amended): at first load `init` synchronously runs `ensureStub` and
installs the function guards, the read guard, the click guard and the
periodic interval, for either readiness state; the mutation observer starts
synchronously exactly when the document is already past `loading`, and
otherwise starts in the `DOMContentLoaded` listener (which also re-runs
`ensureStub`). -/
theorem c5_init_staging :
    (∀ loading : Bool,
      InitAction.installFunctionGuards ∈ (initTrace loading).1 ∧
      InitAction.installReadGuard ∈ (initTrace loading).1 ∧
      InitAction.installClickGuard ∈ (initTrace loading).1 ∧
      InitAction.callEnsureStub ∈ (initTrace loading).1 ∧
      InitAction.startPeriodic ∈ (initTrace loading).1) ∧
    (InitAction.startObserver ∉ (initTrace true).1 ∧
      (initTrace true).2.1 = [InitAction.callEnsureStub, InitAction.startObserver]) ∧
    (InitAction.startObserver ∈ (initTrace false).1 ∧
      (initTrace false).2.1 = []) := by
  decide

/-- C6: every guarded global name currently defined as a function is replaced
by its wrapper; the wrapper runs `ensureStub`, then the original with the
same this-binding and arguments, returns the original's value when it
returns, and on a throw catches it, logs a tagged warning, returns `null`,
and never lets an exception out. -/
theorem c6_safe_wrap (w : String → Option LegacyFn) (name : String)
    (f : LegacyFn) (d : Doc) (this : JSVal) (args : List JSVal)
    (hname : legacyFunctions.contains name = true) (hw : w name = some f) :
    wrapLegacyFunctions w name = some (safeWrap f name) ∧
    (∀ v, f this args = .ok v →
      safeWrap f name d this args = (.ok ((ensureStub d).1, v), [])) ∧
    (∀ err, f this args = .error err →
      safeWrap f name d this args =
        (.ok ((ensureStub d).1, JSVal.null),
         [[TAG, "Caught error in " ++ name ++ ":", err]])) ∧
    (∃ p, (safeWrap f name d this args).1 = Except.ok p) := by
  refine ⟨?_, ?_, ?_, ?_⟩
  · simp only [wrapLegacyFunctions, hw, hname, if_true]
  · intro v hv
    simp [safeWrap, hv]
  · intro err he
    simp [safeWrap, he]
  · cases hx : f this args with
    | ok v =>
      refine ⟨((ensureStub d).1, v), ?_⟩
      simp [safeWrap, hx]
    | error e =>
      refine ⟨((ensureStub d).1, JSVal.null), ?_⟩
      simp [safeWrap, hx]

/-- C6 witness: a throwing guarded function is wrapped, and its wrapped call
returns `null` with a logged warning instead of throwing. -/
theorem c6_safe_wrap_witness :
    wrapLegacyFunctions sampleWindow "updateTabletBadge" =
      some (safeWrap throwingFn "updateTabletBadge") ∧
    safeWrap throwingFn "updateTabletBadge" emptyBodyDoc JSVal.null [] =
      (.ok ((ensureStub emptyBodyDoc).1, JSVal.null),
       [[TAG, "Caught error in " ++ "updateTabletBadge" ++ ":", "boom"]]) := by
  have h := c6_safe_wrap sampleWindow "updateTabletBadge" throwingFn
    emptyBodyDoc JSVal.null [] (by decide) (by rfl)
  exact ⟨h.1, h.2.2.1 "boom" rfl⟩

/-- C9: `ensureStub` never removes or mutates an existing node: every node of
the original document keeps its tag, id, class, attributes and text, its
children keep their relative order, and the call only inserts new nodes. -/
theorem c9_frame (d : Doc) : DocExt d (stubStep d) := by
  cases hg : getElementById d HEADER_ID with
  | some h0 =>
    show DocExt d (ensureStub d).1
    unfold ensureStub
    rw [hg]
    exact updDoc_ext d _ _ fixHeader_ext
  | none =>
    show DocExt d (ensureStub d).1
    unfold ensureStub
    rw [hg]
    exact docExt_trans _ _ _ (insertHeader_ext d)
      (updDoc_ext (insertHeader d) _ _ fixHeader_ext)

/-- C10: a `console.error` call is suppressed (rerouted to a tagged warn,
never forwarded) exactly when its space-joined arguments contain both
"lastChild" and "home-header2", or contain "updateTabletBadge" or
"initNotificationBadge" — whatever code produced it — and any other call is
forwarded to the original with unchanged arguments. -/
theorem c10_error_suppression (args : List String) :
    (suppressCond args = true →
      ∃ w, consoleErrorOverride args = ConsoleAction.warn w) ∧
    (suppressCond args = false →
      consoleErrorOverride args = ConsoleAction.forward args) := by
  by_cases h1 : (strIncludes (String.intercalate " " args) "lastChild" &&
      strIncludes (String.intercalate " " args) "home-header2") = true
  · constructor
    · intro _
      refine ⟨[TAG, "Suppressed error:", String.intercalate " " args], ?_⟩
      simp [consoleErrorOverride, h1]
    · intro h
      simp [suppressCond, h1] at h
  · have h1f : (strIncludes (String.intercalate " " args) "lastChild" &&
        strIncludes (String.intercalate " " args) "home-header2") = false := by
      simpa using h1
    by_cases h2 : (strIncludes (String.intercalate " " args) "updateTabletBadge" ||
        strIncludes (String.intercalate " " args) "initNotificationBadge") = true
    · constructor
      · intro _
        refine ⟨[TAG, "Suppressed notification badge error:",
          String.intercalate " " args], ?_⟩
        simp [consoleErrorOverride, h1f, h2]
      · intro h
        simp [suppressCond, h1f, h2] at h
    · have h2f : (strIncludes (String.intercalate " " args) "updateTabletBadge" ||
          strIncludes (String.intercalate " " args) "initNotificationBadge") = false := by
        simpa using h2
      constructor
      · intro h
        simp [suppressCond, h1f, h2f] at h
      · intro _
        simp [consoleErrorOverride, h1f, h2f]

/-! ### Guarded-selector lemmas (for C7) -/

mutual

theorem gmatchEl_no_header (e : Elem)
    (h : findNode (idIs HEADER_ID) e = none) :
    gmatchEl false false e = [] := by
  cases e with
  | mk t i cl a x cs =>
    have hp : idIs HEADER_ID (Elem.mk t i cl a x cs) = false :=
      findNode_none_not _ _ h
    have hcs : findL (idIs HEADER_ID) cs = none := by
      simpa [findNode, hp] using h
    simp [gmatchEl, hp, gmatchL_no_header cs hcs]

theorem gmatchL_no_header (l : ElemList)
    (h : findL (idIs HEADER_ID) l = none) :
    gmatchL false false l = [] := by
  cases l with
  | nil => rfl
  | cons c cs =>
    obtain ⟨hc, hcs⟩ := findL_cons_none _ c cs h
    simp [gmatchL, gmatchEl_no_header c hc, gmatchL_no_header cs hcs]

end

theorem guardedMatches_none (d : Doc)
    (hg : getElementById d HEADER_ID = none) : guardedMatches d = [] := by
  cases d with
  | mk de =>
    cases de with
    | none => rfl
    | some r =>
      have hfr : findNode (idIs HEADER_ID) r = none := by
        simpa [getElementById] using hg
      simpa [guardedMatches] using gmatchEl_no_header r hfr

theorem gmatch_stubChainHeader :
    gmatchEl false false stubChainHeader = [stubChainInner] := by rfl

theorem updNode_match (p : Elem → Bool) (f : Elem → Elem) (nh : Elem)
    (hnh : p nh = true) : updNode p f nh = some (f nh) := by
  cases nh with
  | mk t i cl a x cs => simp [updNode, hnh]

theorem updL_after_insert (p q : Elem → Bool) (hs : ShallowP p) (nh : Elem)
    (hnh : p nh = true) (f : Elem → Elem) :
    ∀ (cs : ElemList) (b : Elem), findTopChild q cs = some b →
      findL p cs = none →
      updL p f (updTopChild q (fun x => prependChild x nh) cs) =
        some (updTopChild q (fun x => prependChild x (f nh)) cs)
  | .nil, b, ht, _ => by simp [findTopChild] at ht
  | .cons c cs, b, ht, hn => by
    obtain ⟨hc, hcs⟩ := findL_cons_none p c cs hn
    by_cases hqc : q c = true
    · cases c with
      | mk t i cl a x kids =>
        have hpc : p (Elem.mk t i cl a x kids) = false :=
          findNode_none_not p _ hc
        have hpc2 : p (Elem.mk t i cl a x (.cons nh kids)) = false := by
          rw [hs t i cl a x (.cons nh kids) kids]; exact hpc
        simp [updTopChild, hqc, prependChild, updL, updNode, hpc2,
          updNode_match p f nh hnh]
    · have hqc2 : q c = false := by simpa using hqc
      have ht2 : findTopChild q cs = some b := by
        simpa [findTopChild, hqc2] using ht
      simp [updTopChild, hqc2, updL, updNode_none p f c hc,
        updL_after_insert p q hs nh hnh f cs b ht2 hcs]

theorem gmatchL_after_insert (q : Elem → Bool) :
    ∀ (cs : ElemList) (b : Elem), findTopChild q cs = some b →
      findL (idIs HEADER_ID) cs = none →
      gmatchL false false
        (updTopChild q (fun x => prependChild x stubChainHeader) cs) =
        [stubChainInner]
  | .nil, b, ht, _ => by simp [findTopChild] at ht
  | .cons c cs, b, ht, hn => by
    obtain ⟨hc, hcs⟩ := findL_cons_none _ c cs hn
    by_cases hqc : q c = true
    · cases c with
      | mk t i cl a x kids =>
        have hpc : idIs HEADER_ID (Elem.mk t i cl a x kids) = false :=
          findNode_none_not _ _ hc
        have hkids : findL (idIs HEADER_ID) kids = none := by
          simpa [findNode, hpc] using hc
        have hpc2 : idIs HEADER_ID
            (Elem.mk t i cl a x (.cons stubChainHeader kids)) = false := by
          rw [shallow_idIs HEADER_ID t i cl a x _ kids]; exact hpc
        simp only [updTopChild, hqc, if_true, prependChild, gmatchL]
        rw [gmatchL_no_header cs hcs]
        have hred : gmatchEl false false
            (Elem.mk t i cl a x (.cons stubChainHeader kids)) =
            gmatchL (idIs HEADER_ID
              (Elem.mk t i cl a x (.cons stubChainHeader kids))) false
              (.cons stubChainHeader kids) := rfl
        rw [hred, hpc2]
        show (gmatchEl false false stubChainHeader ++
          gmatchL false false kids) ++ [] = [stubChainInner]
        rw [gmatch_stubChainHeader, gmatchL_no_header kids hkids]
        simp
    · have hqc2 : q c = false := by simpa using hqc
      have ht2 : findTopChild q cs = some b := by
        simpa [findTopChild, hqc2] using ht
      simp [updTopChild, hqc2, gmatchL, gmatchEl_no_header c hc,
        gmatchL_after_insert q cs b ht2 hcs]

theorem guardedMatches_cold (d : Doc) (r b : Elem) (hd : d.docElem = some r)
    (hg : getElementById d HEADER_ID = none) (hb : bodyOf d = some b) :
    guardedMatches (stubStep d) = [stubChainInner] := by
  cases r with
  | mk t i cl a x cs =>
    have hfr : findNode (idIs HEADER_ID) (Elem.mk t i cl a x cs) = none := by
      simpa [getElementById, hd] using hg
    have hpr : idIs HEADER_ID (Elem.mk t i cl a x cs) = false :=
      findNode_none_not _ _ hfr
    have hcs : findL (idIs HEADER_ID) cs = none := by
      simpa [findNode, hpr] using hfr
    have hbt : findTopChild (fun e => e.tag == "body") cs = some b := by
      simpa [bodyOf, hd, Elem.children] using hb
    have hins : insertHeader d =
        { docElem := some (Elem.mk t i cl a x
          (updTopChild (fun e => e.tag == "body")
            (fun x2 => prependChild x2 newHeader) cs)) } := by
      unfold insertHeader
      rw [hb, hd]
    have hp1 : idIs HEADER_ID (Elem.mk t i cl a x
        (updTopChild (fun e => e.tag == "body")
          (fun x2 => prependChild x2 newHeader) cs)) = false := by
      rw [shallow_idIs HEADER_ID t i cl a x _ cs]; exact hpr
    have hupd := updL_after_insert (idIs HEADER_ID)
      (fun e => e.tag == "body") (shallow_idIs _) newHeader (by decide)
      fixHeader cs b hbt hcs
    have hp2 : idIs HEADER_ID (Elem.mk t i cl a x
        (updTopChild (fun e => e.tag == "body")
          (fun x2 => prependChild x2 (fixHeader newHeader)) cs)) = false := by
      rw [shallow_idIs HEADER_ID t i cl a x _ cs]; exact hpr
    show guardedMatches (ensureStub d).1 = [stubChainInner]
    unfold ensureStub
    rw [hg]
    simp only [hins, updDoc, updNode, hp1, Bool.false_eq_true, if_false, hupd]
    simp only [guardedMatches, gmatchEl, hp2, Bool.false_eq_true, if_false,
      Bool.false_and, Bool.false_or, Bool.and_self]
    simp only [List.nil_append]
    exact gmatchL_after_insert (fun e => e.tag == "body") cs b hbt hcs

/-- C7: as stated the claim is false — the retry can still return null for a
document lacking the stub.  In `nestedDivDoc` the guarded selector matches
nothing (the only div under the container is a grandchild), yet `ensureStub`
finds all four of its levels fine (its div lookup is depth-free) and changes
nothing, so the patched query returns null. -/
theorem c7_counterexample :
    querySelGuarded nestedDivDoc = none ∧
    patchedQuerySelector guardedSelector nestedDivDoc = (nestedDivDoc, none) := by
  exact ⟨rfl, rfl⟩

/-- C7 (amended): a hit passes through unchanged; a miss whose selector text
contains `home-header2` triggers `ensureStub` and exactly one retry on the
updated document; and when the document contains no element with the header
id at all and has a body, the retried guarded query returns the newly
created inner div rather than null. -/
theorem c7_read_guard (sel : Selector) (d : Doc) (b : Elem) :
    (∀ e, sel.run d = some e → patchedQuerySelector sel d = (d, some e)) ∧
    (sel.run d = none → strIncludes sel.str "home-header2" = true →
      patchedQuerySelector sel d = ((ensureStub d).1, sel.run (ensureStub d).1)) ∧
    (getElementById d HEADER_ID = none → bodyOf d = some b →
      (patchedQuerySelector guardedSelector d).2 = some stubChainInner) := by
  refine ⟨?_, ?_, ?_⟩
  · intro e he
    simp [patchedQuerySelector, he]
  · intro hn hstr
    simp [patchedQuerySelector, hn, hstr]
  · intro hg hb
    have hd : ∃ r, d.docElem = some r := by
      cases d with
      | mk de =>
        cases de with
        | none => simp [bodyOf] at hb
        | some r => exact ⟨r, rfl⟩
    obtain ⟨r, hd⟩ := hd
    have hnone : querySelGuarded d = none := by
      simp [querySelGuarded, guardedMatches_none d hg]
    have hcold := guardedMatches_cold d r b hd hg hb
    have hrun : guardedSelector.run d = none := hnone
    have h2 : patchedQuerySelector guardedSelector d =
        ((ensureStub d).1, guardedSelector.run (ensureStub d).1) := by
      unfold patchedQuerySelector
      rw [hrun]
      simp [guardedSelector,
        (by decide :
          strIncludes "#home-header2 .container > div" "home-header2" = true)]
    rw [h2]
    show querySelGuarded (stubStep d) = some stubChainInner
    unfold querySelGuarded
    rw [hcold]
    rfl

/-- C7 witness: over the empty-body document the guarded query, after
interception, returns the created inner div; and the miss branch retries on
the repaired document. -/
theorem c7_read_guard_witness :
    (patchedQuerySelector guardedSelector emptyBodyDoc).2 = some stubChainInner ∧
    patchedQuerySelector guardedSelector emptyBodyDoc =
      ((ensureStub emptyBodyDoc).1,
        guardedSelector.run (ensureStub emptyBodyDoc).1) := by
  have h := c7_read_guard guardedSelector emptyBodyDoc
    (Elem.mk "body" "" "" [] "" .nil)
  exact ⟨h.2.2 (by rfl) (by rfl), h.2.1 (by rfl) (by decide)⟩

/-! ### Codec lemmas (for C8): the form-urlencoded round trip -/

theorem char_toNat_lt (c : Char) : c.toNat < 0x110000 := by
  rcases c.valid with h | ⟨h1, h2⟩
  · exact Nat.lt_trans h (by norm_num)
  · exact h2

theorem utf8Decode_encode (c : Char) (rest : List Nat) :
    utf8Decode (utf8Bytes c ++ rest) =
      (utf8Decode rest).map (fun l => c :: l) := by
  have hofn : Char.ofNat c.toNat = c := Char.ofNat_toNat c
  have hvalid : c.toNat < 0x110000 := char_toNat_lt c
  by_cases h1 : c.toNat < 0x80
  · have hb : utf8Bytes c = [c.toNat] := by
      unfold utf8Bytes; rw [if_pos h1]
    rw [hb, List.cons_append, List.nil_append, utf8Decode, if_pos h1, hofn]
  · by_cases h2 : c.toNat < 0x800
    · have hb : utf8Bytes c =
          [0xC0 + c.toNat / 0x40, 0x80 + c.toNat % 0x40] := by
        unfold utf8Bytes; rw [if_neg h1, if_pos h2]
      rw [hb]
      simp only [List.cons_append, List.nil_append]
      rw [utf8Decode, if_neg (by omega), if_neg (by omega), if_pos (by omega)]
      rw [utf8Cont1, if_pos (by constructor <;> omega)]
      have hval : (0xC0 + c.toNat / 0x40 - 0xC0) * 0x40 +
          (0x80 + c.toNat % 0x40 - 0x80) = c.toNat := by omega
      rw [hval, hofn]
    · by_cases h3 : c.toNat < 0x10000
      · have hb : utf8Bytes c = [0xE0 + c.toNat / 0x1000,
            0x80 + c.toNat / 0x40 % 0x40, 0x80 + c.toNat % 0x40] := by
          unfold utf8Bytes; rw [if_neg h1, if_neg h2, if_pos h3]
        rw [hb]
        simp only [List.cons_append, List.nil_append]
        rw [utf8Decode, if_neg (by omega), if_neg (by omega),
          if_neg (by omega), if_pos (by omega)]
        rw [utf8Cont2, if_pos (by constructor <;> omega)]
        rw [utf8Cont1, if_pos (by constructor <;> omega)]
        have hval : ((0xE0 + c.toNat / 0x1000 - 0xE0) * 0x40 +
            (0x80 + c.toNat / 0x40 % 0x40 - 0x80)) * 0x40 +
            (0x80 + c.toNat % 0x40 - 0x80) = c.toNat := by omega
        rw [hval, hofn]
      · have hb : utf8Bytes c = [0xF0 + c.toNat / 0x40000,
            0x80 + c.toNat / 0x1000 % 0x40, 0x80 + c.toNat / 0x40 % 0x40,
            0x80 + c.toNat % 0x40] := by
          unfold utf8Bytes; rw [if_neg h1, if_neg h2, if_neg h3]
        rw [hb]
        simp only [List.cons_append, List.nil_append]
        rw [utf8Decode, if_neg (by omega), if_neg (by omega),
          if_neg (by omega), if_neg (by omega)]
        rw [utf8Cont3, if_pos (by constructor <;> omega)]
        rw [utf8Cont2, if_pos (by constructor <;> omega)]
        rw [utf8Cont1, if_pos (by constructor <;> omega)]
        have hval : (((0xF0 + c.toNat / 0x40000 - 0xF0) * 0x40 +
            (0x80 + c.toNat / 0x1000 % 0x40 - 0x80)) * 0x40 +
            (0x80 + c.toNat / 0x40 % 0x40 - 0x80)) * 0x40 +
            (0x80 + c.toNat % 0x40 - 0x80) = c.toNat := by omega
        rw [hval, hofn]

theorem utf8Bytes_bound (c : Char) : ∀ b ∈ utf8Bytes c, b < 256 := by
  intro b hb
  have hvalid : c.toNat < 0x110000 := char_toNat_lt c
  unfold utf8Bytes at hb
  by_cases h1 : c.toNat < 0x80
  · rw [if_pos h1] at hb
    simp at hb
    omega
  · by_cases h2 : c.toNat < 0x800
    · rw [if_neg h1, if_pos h2] at hb
      simp at hb
      rcases hb with h | h <;> omega
    · by_cases h3 : c.toNat < 0x10000
      · rw [if_neg h1, if_neg h2, if_pos h3] at hb
        simp at hb
        rcases hb with h | h | h <;> omega
      · rw [if_neg h1, if_neg h2, if_neg h3] at hb
        simp at hb
        rcases hb with h | h | h | h <;> omega

theorem utf8Decode_encList :
    ∀ (l : List Char) (rest : List Nat),
      utf8Decode ((l.map utf8Bytes).flatten ++ rest) =
        (utf8Decode rest).map (fun l2 => l ++ l2)
  | [], rest => by
    simp only [List.map_nil, List.flatten_nil, List.nil_append]
    cases utf8Decode rest <;> simp
  | c :: l, rest => by
    simp only [List.map_cons, List.flatten_cons, List.append_assoc]
    rw [utf8Decode_encode c _, utf8Decode_encList l rest]
    cases utf8Decode rest <;> simp

theorem hexVal_hexDigit : ∀ n, n < 16 → hexVal (hexDigit n) = some n := by
  decide

theorem decBytes_encByte (b : Nat) (hb : b < 256) (rest : List Char) :
    decBytes (encByte b ++ rest) = (decBytes rest).map (fun bs => b :: bs) := by
  have h1 : hexVal (hexDigit (b / 16)) = some (b / 16) :=
    hexVal_hexDigit _ (by omega)
  have h2 : hexVal (hexDigit (b % 16)) = some (b % 16) :=
    hexVal_hexDigit _ (by omega)
  simp only [encByte, List.cons_append, List.nil_append]
  rw [decBytes, if_neg (by decide), if_pos (by decide)]
  rw [decPct]
  simp only [h1, h2]
  have hval : b / 16 * 16 + b % 16 = b := by omega
  rw [hval]

theorem decBytes_encByteList :
    ∀ (bs : List Nat), (∀ b ∈ bs, b < 256) → ∀ (rest : List Char),
      decBytes ((bs.map encByte).flatten ++ rest) =
        (decBytes rest).map (fun l => bs ++ l)
  | [], _, rest => by
    simp only [List.map_nil, List.flatten_nil, List.nil_append]
    cases decBytes rest <;> simp
  | b :: bs, h, rest => by
    simp only [List.map_cons, List.flatten_cons, List.append_assoc]
    rw [decBytes_encByte b (h b (by simp)) _,
      decBytes_encByteList bs (fun x hx => h x (by simp [hx])) rest]
    cases decBytes rest <;> simp

theorem unreserved_ne_plus (c : Char) (h : isUnreserved c = true) :
    (c == '+') = false := by
  by_cases hc : c = '+'
  · subst hc; exact absurd h (by decide)
  · simp [hc]

theorem unreserved_ne_pct (c : Char) (h : isUnreserved c = true) :
    (c == '%') = false := by
  by_cases hc : c = '%'
  · subst hc; exact absurd h (by decide)
  · simp [hc]

theorem decBytes_encChar (c : Char) (rest : List Char) :
    decBytes (encChar c ++ rest) =
      (decBytes rest).map (fun bs => utf8Bytes c ++ bs) := by
  unfold encChar
  by_cases hu : isUnreserved c = true
  · rw [if_pos hu, List.cons_append, List.nil_append]
    rw [decBytes, if_neg (by rw [unreserved_ne_plus c hu]; simp),
      if_neg (by rw [unreserved_ne_pct c hu]; simp)]
  · rw [if_neg hu]
    by_cases hsp : c = ' '
    · subst hsp
      rw [if_pos (by decide), List.cons_append, List.nil_append]
      rw [decBytes, if_pos (by decide)]
      have : utf8Bytes ' ' = [0x20] := rfl
      rw [this]
      cases decBytes rest <;> rfl
    · rw [if_neg (by simp [hsp])]
      exact decBytes_encByteList (utf8Bytes c) (utf8Bytes_bound c) rest

theorem decBytes_encList :
    ∀ (l : List Char) (rest : List Char),
      decBytes ((l.map encChar).flatten ++ rest) =
        (decBytes rest).map (fun bs => (l.map utf8Bytes).flatten ++ bs)
  | [], rest => by
    simp only [List.map_nil, List.flatten_nil, List.nil_append]
    cases decBytes rest <;> simp
  | c :: l, rest => by
    simp only [List.map_cons, List.flatten_cons, List.append_assoc]
    rw [decBytes_encChar c _, decBytes_encList l rest]
    cases decBytes rest <;> simp

theorem decStr_encStr (s : String) : decStr (encStr s) = some s := by
  unfold decStr encStr
  have h1 : decBytes ((s.data.map encChar).flatten) =
      some ((s.data.map utf8Bytes).flatten) := by
    have := decBytes_encList s.data []
    simpa [decBytes] using this
  rw [h1]
  have h2 : utf8Decode ((s.data.map utf8Bytes).flatten) = some s.data := by
    have := utf8Decode_encList s.data []
    simpa [utf8Decode] using this
  simp only [h2]

theorem hexDigit_safe (n : Nat) (sep : Char) (hsep : isUnreserved sep = false) :
    (hexDigit n == sep) = false := by
  by_cases hn : n < 16
  · have hmem : hexDigit n ∈ ['0', '1', '2', '3', '4', '5', '6', '7', '8',
        '9', 'A', 'B', 'C', 'D', 'E', 'F'] := by
      unfold hexDigit
      rw [List.getD_eq_getElem _ _ (by simp; omega)]
      exact List.getElem_mem _
    by_cases he : hexDigit n = sep
    · rw [he] at hmem
      have : isUnreserved sep = true := by
        fin_cases hmem <;> decide
      rw [this] at hsep; cases hsep
    · simp [he]
  · have : hexDigit n = '0' := by
      unfold hexDigit
      exact List.getD_eq_default _ _ (by simp; omega)
    rw [this]
    by_cases he : ('0' : Char) = sep
    · rw [← he] at hsep; exact absurd hsep (by decide)
    · simp [he]

theorem encChar_safe (c : Char) (sep : Char) (hsep : isUnreserved sep = false)
    (hplus : sep ≠ '+') (hpct : sep ≠ '%') :
    ∀ x ∈ encChar c, (x == sep) = false := by
  intro x hx
  unfold encChar at hx
  by_cases hu : isUnreserved c = true
  · rw [if_pos hu] at hx
    simp at hx
    subst hx
    by_cases he : x = sep
    · rw [he] at hu; rw [hu] at hsep; cases hsep
    · simp [he]
  · rw [if_neg hu] at hx
    by_cases hsp : c = ' '
    · subst hsp
      rw [if_pos (by decide)] at hx
      simp at hx
      subst hx
      simp [Ne.symm hplus]
    · rw [if_neg (by simp [hsp])] at hx
      rw [List.mem_flatten] at hx
      obtain ⟨l, hl, hxl⟩ := hx
      rw [List.mem_map] at hl
      obtain ⟨b, _, hb⟩ := hl
      subst hb
      unfold encByte at hxl
      simp at hxl
      rcases hxl with h | h | h
      · subst h; simp [Ne.symm hpct]
      · subst h; exact hexDigit_safe _ sep hsep
      · subst h; exact hexDigit_safe _ sep hsep

theorem encStr_safe (s : String) (sep : Char) (hsep : isUnreserved sep = false)
    (hplus : sep ≠ '+') (hpct : sep ≠ '%') :
    ∀ x ∈ encStr s, (x == sep) = false := by
  intro x hx
  unfold encStr at hx
  rw [List.mem_flatten] at hx
  obtain ⟨l, hl, hxl⟩ := hx
  rw [List.mem_map] at hl
  obtain ⟨c, _, hc⟩ := hl
  subst hc
  exact encChar_safe c sep hsep hplus hpct x hxl

theorem splitChar_no_sep (sep : Char) :
    ∀ (l : List Char), (∀ x ∈ l, (x == sep) = false) → ∀ acc,
      splitChar sep l acc = [acc.reverse ++ l]
  | [], _, acc => by simp [splitChar]
  | c :: l, h, acc => by
    have hc : (c == sep) = false := h c (by simp)
    rw [splitChar, if_neg (by simp [hc])]
    rw [splitChar_no_sep sep l (fun x hx => h x (by simp [hx])) (c :: acc)]
    simp

theorem splitChar_append_sep (sep : Char) :
    ∀ (l1 : List Char), (∀ x ∈ l1, (x == sep) = false) → ∀ l2 acc,
      splitChar sep (l1 ++ sep :: l2) acc =
        (acc.reverse ++ l1) :: splitChar sep l2 []
  | [], _, l2, acc => by
    simp only [List.nil_append]
    rw [splitChar, if_pos (by simp)]
    simp
  | c :: l1, h, l2, acc => by
    have hc : (c == sep) = false := h c (by simp)
    simp only [List.cons_append]
    rw [splitChar, if_neg (by simp [hc])]
    rw [splitChar_append_sep sep l1 (fun x hx => h x (by simp [hx])) l2 (c :: acc)]
    simp

theorem breakAt_append_sep (sep : Char) :
    ∀ (l1 : List Char), (∀ x ∈ l1, (x == sep) = false) → ∀ l2,
      breakAt sep (l1 ++ sep :: l2) = some (l1, l2)
  | [], _, l2 => by
    simp only [List.nil_append]
    rw [breakAt, if_pos (by simp)]
  | c :: l1, h, l2 => by
    have hc : (c == sep) = false := h c (by simp)
    simp only [List.cons_append]
    rw [breakAt, if_neg (by simp [hc])]
    rw [breakAt_append_sep sep l1 (fun x hx => h x (by simp [hx])) l2]
    rfl

theorem parsePair_serializePair (k v : String) :
    parsePair (serializePair k v) = some (k, v) := by
  unfold parsePair serializePair
  rw [breakAt_append_sep '=' (encStr k)
    (encStr_safe k '=' (by decide) (by decide) (by decide)) (encStr v)]
  simp only [decStr_encStr]

theorem serializePair_safe_amp (k v : String) :
    ∀ x ∈ serializePair k v, (x == '&') = false := by
  intro x hx
  unfold serializePair at hx
  rw [List.mem_append] at hx
  rcases hx with h | h
  · exact encStr_safe k '&' (by decide) (by decide) (by decide) x h
  · rw [List.mem_cons] at h
    rcases h with h | h
    · subst h; decide
    · exact encStr_safe v '&' (by decide) (by decide) (by decide) x h

theorem parseQuery_one (k v : String) :
    parseQuery (serializeQuery [(k, v)]) = some [(k, v)] := by
  unfold parseQuery
  rw [show serializeQuery [(k, v)] = serializePair k v from rfl]
  rw [splitChar_no_sep '&' (serializePair k v) (serializePair_safe_amp k v) []]
  simp [parsePairs, parsePair_serializePair]

theorem parseQuery_two (k1 v1 k2 v2 : String) :
    parseQuery (serializeQuery [(k1, v1), (k2, v2)]) =
      some [(k1, v1), (k2, v2)] := by
  unfold parseQuery
  rw [show serializeQuery [(k1, v1), (k2, v2)] =
    serializePair k1 v1 ++ '&' :: serializePair k2 v2 from rfl]
  rw [splitChar_append_sep '&' (serializePair k1 v1)
    (serializePair_safe_amp k1 v1) (serializePair k2 v2) []]
  rw [splitChar_no_sep '&' (serializePair k2 v2) (serializePair_safe_amp k2 v2) []]
  simp [parsePairs, parsePair_serializePair]

theorem hasSub_mem (c : Char) (nee : List Char) :
    ∀ hay, hasSub (c :: nee) hay = true → c ∈ hay
  | [], h => by simp [hasSub, prefOf] at h
  | d :: rest, h => by
    unfold hasSub at h
    rw [Bool.or_eq_true] at h
    rcases h with h | h
    · unfold prefOf at h
      rw [Bool.and_eq_true] at h
      have : c = d := eq_of_beq h.1
      subst this
      exact List.mem_cons_self c rest
    · exact List.mem_cons_of_mem d (hasSub_mem c nee rest h)

theorem mem_dropWhile (p : Char → Bool) (c : Char) (hw : p c = false) :
    ∀ l : List Char, c ∈ l → c ∈ l.dropWhile p := by
  intro l
  induction l with
  | nil => intro h; simp at h
  | cons d rest ih =>
    intro h
    by_cases hd : p d = true
    · rw [List.dropWhile_cons_of_pos hd]
      rcases List.mem_cons.mp h with h2 | h2
      · subst h2; rw [hd] at hw; cases hw
      · exact ih h2
    · rw [List.dropWhile_cons_of_neg hd]
      exact h

theorem trimStr_ne_empty (u : String) (c : Char) (hc : c ∈ u.data)
    (hw : isWsp c = false) : (trimStr u == "") = false := by
  unfold trimStr
  have h1 : c ∈ u.data.dropWhile isWsp := mem_dropWhile isWsp c hw _ hc
  have h2 : c ∈ (u.data.dropWhile isWsp).reverse := by simpa using h1
  have h3 : c ∈ (u.data.dropWhile isWsp).reverse.dropWhile isWsp :=
    mem_dropWhile isWsp c hw _ h2
  have h4 : c ∈ ((u.data.dropWhile isWsp).reverse.dropWhile isWsp).reverse := by
    simpa using h3
  have h5 := List.ne_nil_of_mem h4
  by_cases he : String.mk (((u.data.dropWhile isWsp).reverse.dropWhile
      isWsp).reverse) = ""
  · exact absurd (congrArg String.data he) h5
  · simp [he]

theorem searchOf_dest (origin : String)
    (horigin : ∀ x ∈ origin.data, (x == '?') = false) (q : List Char) :
    searchOf (origin ++ "/meeting?" ++ String.mk q) = q := by
  unfold searchOf
  have hdata : (origin ++ "/meeting?" ++ String.mk q).data =
      (origin.data ++ ("/meeting" : String).data) ++ '?' :: q := by
    rw [String.data_append, String.data_append]
    rw [show ("/meeting?" : String).data =
      ("/meeting" : String).data ++ ['?'] by decide]
    simp
  rw [hdata]
  have hsep : ∀ x ∈ origin.data ++ ("/meeting" : String).data,
      (x == '?') = false := by
    intro x hx
    rcases List.mem_append.mp hx with h | h
    · exact horigin x h
    · exact (by decide :
        ∀ y ∈ ("/meeting" : String).data, (y == '?') = false) x h
  rw [breakAt_append_sep '?' _ hsep q]

/-- C8: for every meeting URL containing the vendor domain and every
optional session id, the redirect handler runs (the URL is necessarily
non-blank), and the destination URL's query parameters, parsed back exactly
as the meeting page parses them, return the meeting URL byte-for-byte and
the supplied session id (and no session id when none — or a blank, falsy
one — was supplied). -/
theorem c8_redirect_round_trip (origin url : String) (sid : Option String)
    (hvendor : strIncludes url "zoom.us" = true)
    (horigin : ∀ x ∈ origin.data, (x == '?') = false) :
    ∃ dest, handleJoinSession origin (some url) sid = some dest ∧
      meetingPageMeetingUrl dest = some url ∧
      (∀ s, sid = some s → (s == "") = false →
        meetingPageSessionId dest = some s) ∧
      (sid = none → meetingPageSessionId dest = none) := by
  have h0 : hasSub (("zoom.us" : String).data) url.data = true := hvendor
  rw [show ("zoom.us" : String).data = 'z' :: ("oom.us" : String).data by
    decide] at h0
  have hz : 'z' ∈ url.data := hasSub_mem 'z' _ url.data h0
  have htrim : (trimStr url == "") = false :=
    trimStr_ne_empty url 'z' hz (by decide)
  cases sid with
  | none =>
    refine ⟨origin ++ "/meeting?" ++
      String.mk (serializeQuery [("meetingUrl", url)]), ?_, ?_, ?_, ?_⟩
    · unfold handleJoinSession
      simp [htrim, setParam]
    · unfold meetingPageMeetingUrl
      rw [searchOf_dest origin horigin, parseQuery_one]
      simp [getParam]
    · intro s hcontra
      exact absurd hcontra (by simp)
    · intro _
      unfold meetingPageSessionId
      rw [searchOf_dest origin horigin, parseQuery_one]
      simp [getParam]
  | some s =>
    by_cases hse : (s == "") = true
    · have hs : s = "" := eq_of_beq hse
      subst hs
      refine ⟨origin ++ "/meeting?" ++
        String.mk (serializeQuery [("meetingUrl", url)]), ?_, ?_, ?_, ?_⟩
      · unfold handleJoinSession
        simp [htrim, setParam]
      · unfold meetingPageMeetingUrl
        rw [searchOf_dest origin horigin, parseQuery_one]
        simp [getParam]
      · intro s2 hinj hs2
        have h : s2 = "" := (Option.some.inj hinj).symm
        subst h
        exact absurd hs2 (by decide)
      · intro hcontra
        exact absurd hcontra (by simp)
    · have hse2 : (s == "") = false := by simpa using hse
      refine ⟨origin ++ "/meeting?" ++
        String.mk (serializeQuery [("meetingUrl", url), ("sessionId", s)]),
        ?_, ?_, ?_, ?_⟩
      · unfold handleJoinSession
        simp [htrim, hse2, setParam]
      · unfold meetingPageMeetingUrl
        rw [searchOf_dest origin horigin, parseQuery_two]
        simp [getParam]
      · intro s2 hinj hs2
        have h : s2 = s := (Option.some.inj hinj).symm
        subst h
        unfold meetingPageSessionId
        rw [searchOf_dest origin horigin, parseQuery_two]
        simp [getParam]
      · intro hcontra
        exact absurd hcontra (by simp)

/-- C8 witness: a concrete zoom URL with spaces and a plus sign, and a
session id with a space, survive the round trip byte-for-byte. -/
theorem c8_redirect_round_trip_witness :
    ∃ dest, handleJoinSession "https://app.steadii.com"
        (some "https://us02web.zoom.us/j/555?pwd=ab cd+e")
        (some "sess 42") = some dest ∧
      meetingPageMeetingUrl dest =
        some "https://us02web.zoom.us/j/555?pwd=ab cd+e" ∧
      meetingPageSessionId dest = some "sess 42" := by
  obtain ⟨dest, h1, h2, h3, _⟩ := c8_redirect_round_trip
    "https://app.steadii.com" "https://us02web.zoom.us/j/555?pwd=ab cd+e"
    (some "sess 42") (by decide) (by decide)
  exact ⟨dest, h1, h2, h3 "sess 42" rfl (by decide)⟩

/-- C10 witness: a badge error is suppressed; an unrelated message is
forwarded unchanged. -/
theorem c10_error_suppression_witness :
    (∃ w, consoleErrorOverride ["TypeError: updateTabletBadge failed"] =
      ConsoleAction.warn w) ∧
    consoleErrorOverride ["hello", "world"] =
      ConsoleAction.forward ["hello", "world"] := by
  exact ⟨(c10_error_suppression _).1 (by decide),
    (c10_error_suppression _).2 (by decide)⟩

end StubGuard
